import Mathlib

/-!
Verification development for the MortgageCalc repository (loan.py,
scenario.py).

Embedding conventions:
* Python floats are modelled as exact rationals (`ℚ`).  `round(x, 2)` is
  modelled by `round2` below (round to the nearest multiple of 1/100; the
  tie-breaking direction is irrelevant to every statement proved here).
* `datetime` values are modelled as rational day counts since an arbitrary
  epoch; a parsed `YYYY-MM-DD` string is a whole number of days (`ℤ`).
  `timedelta(365.25 / frequency)` is the exact rational `(1461/4) / frequency`
  (exact in Python too, since `timedelta` stores integral microseconds and
  365.25 is a binary-representable float).
* A date-string argument is modelled as `Option ℤ`: `none` stands for a
  string that fails to parse, `some d` for a string parsing to day `d`.
* Fallible code returns `Except String _`; the string is the message of the
  Python exception that the corresponding path raises.
* Mutation of `self` is modelled by returning the updated object; operations
  that can raise after having mutated the schedule return the final state of
  the schedule together with the error.
* The unbounded `while` loop of `run_scenario` is modelled with explicit
  fuel; `none` means the loop has not terminated within the given fuel.
-/

set_option allowUnsafeReducibility true in
attribute [semireducible] Rat.mul Rat.inv Rat.add Rat.sub Rat.ofScientific

deriving instance DecidableEq for Except

/-- Model of Python `round(x, 2)`: round to 2 decimal places. -/
def round2 (x : ℚ) : ℚ := ((round (x * 100) : ℤ) : ℚ) / 100

/-- Embedding of `loan.Loan`: the five member variables.  The `__init__`
defaults are `frequency = 0`, `length = 0`, `payment = 0.0`,
`principal = 0.0`, `rate = -1.0` (an unset field keeps its default). -/
structure Loan where
  frequency : ℤ
  length : ℤ
  payment : ℚ
  principal : ℚ
  rate : ℚ
deriving DecidableEq, Repr

/-- The `Loan.__init__` defaults. -/
def Loan.init : Loan := { frequency := 0, length := 0, payment := 0, principal := 0, rate := -1 }

/-- Embedding of the `payment` property setter (the `isinstance` numeric
check is enforced by typing). -/
def Loan.set_payment (l : Loan) (value : ℚ) : Except String Loan :=
  if value < 0 then .error "Payment must be greater than or equal to zero."
  else .ok { l with payment := value }

/-- Embedding of the `principal` property setter. -/
def Loan.set_principal (l : Loan) (value : ℚ) : Except String Loan :=
  if value < 0 then .error "Principal must be greater than or equal to zero."
  else .ok { l with principal := value }

/-- Embedding of the static method `Loan.interest`. -/
def Loan.interest (principal rate : ℚ) (frequency : ℤ) : Except String ℚ :=
  if frequency ≤ 0 then .error "Frequnecy must be greater than zero."
  else if principal < 0 then .error "Principal must be greater than or equal to zero."
  else if rate < 0 then .error "Rate must be greater than or equal to zero."
  else .ok (round2 (principal * (rate / (frequency : ℚ))))

/-- Embedding of the static method `Loan.calculate_form_factor`. -/
def Loan.calculate_form_factor (frequency length : ℤ) (rate : ℚ) : Except String ℚ :=
  if frequency ≤ 0 then .error "Frequnecy must be greater than zero."
  else if length ≤ 0 then .error "Length must be greater than zero."
  else if rate < 0 then .error "Rate must be greater than or equal to zero."
  else
    let n : ℤ := length * frequency
    if rate = 0 then .ok (1 / (n : ℚ))
    else
      let r : ℚ := rate / (frequency : ℚ)
      let f : ℚ := (1 + r) ^ n.toNat
      .ok (f * r / (f - 1))

/-- Embedding of `Loan._check_required_inputs`.  Note that in the source both
parameters default to `True`, and both call sites pass only the flag that is
already `True` by default, so the `payment`/`principal` clauses below are
dead code at those call sites. -/
def Loan.check_required_inputs (l : Loan) (ignore_payment ignore_principal : Bool) : Bool :=
  if l.frequency ≤ 0 then false
  else if l.length ≤ 0 then false
  else if l.rate < 0 then false
  else if ¬ignore_payment ∧ l.payment ≤ 0 then false
  else if ¬ignore_principal ∧ l.principal ≤ 0 then false
  else true

/-- Embedding of `Loan.calculate_payment`.  The source calls
`_check_required_inputs(ignore_principal=True)`, i.e. with **both** ignore
flags `True` (`ignore_payment` keeps its default).  Returns the computed
payment together with the (possibly updated, when `store_result`) loan. -/
def Loan.calculate_payment (l : Loan) (store_result : Bool) : Except String (ℚ × Loan) :=
  if ¬(l.check_required_inputs true true) then
    .error "All necessary variables have not been set."
  else
    match Loan.calculate_form_factor l.frequency l.length l.rate with
    | .error e => .error e
    | .ok ff =>
      let payment := round2 (l.principal * ff)
      if store_result then
        match l.set_payment payment with
        | .error e => .error e
        | .ok l' => .ok (payment, l')
      else .ok (payment, l)

/-- Embedding of `Loan.calculate_principal`.  The source calls
`_check_required_inputs(ignore_payment=True)`, again leaving both ignore
flags `True`. -/
def Loan.calculate_principal (l : Loan) (store_result : Bool) : Except String (ℚ × Loan) :=
  if ¬(l.check_required_inputs true true) then
    .error "All necessary variables have not been set."
  else
    match Loan.calculate_form_factor l.frequency l.length l.rate with
    | .error e => .error e
    | .ok ff =>
      let principal := round2 (l.payment / ff)
      if store_result then
        match l.set_principal principal with
        | .error e => .error e
        | .ok l' => .ok (principal, l')
      else .ok (principal, l)

/-- Embedding of a `scenario.Scenario._one_time_payments` entry: the dict
`{DATE: dt, PAYMENT: payment}`.  `unprocessed` models the presence of the
transient `'unprocessed'` key that `run_scenario` adds and removes
(`none` = key absent; when present its value is always `True`). -/
structure OneTimeE where
  date : ℤ
  amount : ℚ
  unprocessed : Option Bool
deriving DecidableEq, Repr

/-- Embedding of a `scenario.Scenario._recurring_payments` entry: the dict
`{END_DATE, PAYMENT, PERIOD, START_DATE}`.  `last` models the presence of
the transient `'last'` cycle counter key. -/
structure RecurE where
  start_date : ℤ
  end_date : ℤ
  amount : ℚ
  period : ℤ
  last : Option ℤ
deriving DecidableEq, Repr

/-- Embedding of `scenario.Scenario`: a loan, an optional start date and the
two payment schedules. -/
structure Scenario where
  loan : Loan
  start_date : Option ℤ
  one_time_payments : List OneTimeE
  recurring_payments : List RecurE
deriving DecidableEq, Repr

/-- Embedding of `scenario.convert_string_to_datetime`: `none` models a
string that does not parse as `YYYY-MM-DD`. -/
def convert_string_to_datetime (value : Option ℤ) : Except String ℤ :=
  match value with
  | none => .error "Start date must be in the form YYYY-MM-DD."
  | some d => .ok d

/-- Embedding of `Scenario.add_one_time_payment`.  Returns the call outcome
together with the (possibly updated) scenario; on every error path the
scenario is the unmodified input, mirroring that the source appends only
after all checks. -/
def Scenario.add_one_time_payment (s : Scenario) (payment : ℚ) (date : Option ℤ) :
    Except String Unit × Scenario :=
  if payment < 0 then (.error "Payment must be greater than or equal to zero.", s)
  else
    match convert_string_to_datetime date with
    | .error e => (.error e, s)
    | .ok dt =>
      (.ok (), { s with one_time_payments :=
        s.one_time_payments ++ [{ date := dt, amount := payment, unprocessed := none }] })

/-- Embedding of `Scenario.add_recurring_payment`.  `end_date` is
`none` for the omitted/empty-string default, `some es` for a non-empty
string argument `es`.  Note the source computes
`self.start_date + timedelta(days=365 * self.loan.length)` unconditionally
before looking at `end_date`; when `self.start_date` is `None` this raises
`TypeError` (`None + timedelta`). -/
def Scenario.add_recurring_payment (s : Scenario) (payment : ℚ) (start_date : Option ℤ)
    (end_date : Option (Option ℤ)) (period : ℤ) : Except String Unit × Scenario :=
  if payment < 0 then (.error "Payment must be greater than or equal to zero.", s)
  else
    match convert_string_to_datetime start_date with
    | .error e => (.error e, s)
    | .ok dt_start =>
      match s.start_date with
      | none => (.error "TypeError: unsupported operand type for +: NoneType and timedelta", s)
      | some sd =>
        let dt_end0 : ℤ := sd + 365 * s.loan.length
        match (match end_date with
               | none => .ok dt_end0
               | some es => convert_string_to_datetime es : Except String ℤ) with
        | .error e => (.error e, s)
        | .ok dt_end =>
          if period ≤ 0 then (.error "Period must be greater than zero.", s)
          else
            (.ok (), { s with recurring_payments := s.recurring_payments ++
              [{ start_date := dt_start, end_date := dt_end, amount := payment,
                 period := period, last := none }] })

/-- Embedding of `scenario.Results`. -/
structure Results where
  cumulative_interest : List ℚ
  cumulative_payments : List ℚ
  remaining_principal : List ℚ
  total_interest : ℚ
  total_length : ℕ
  total_payment : ℚ
deriving DecidableEq, Repr

/-- The state of `run_scenario`'s `while` loop: the local variables
`remaining_principal` and `current_sim_date`, the two (mutated) schedules
and the growing result lists.  The result lists are kept newest-first, so a
loop iteration conses; `run_scenario` reverses them at the end. -/
structure LoopState where
  remaining : ℚ
  current : Option ℚ
  one_times : List OneTimeE
  recurrings : List RecurE
  ci : List ℚ
  cp : List ℚ
  rp : List ℚ
  tl : ℕ
deriving DecidableEq, Repr

/-- The per-period step `current_sim_date += timedelta(365.25 / frequency)`,
as a number of days. -/
def stepDays (frequency : ℤ) : ℚ := (1461 / 4 : ℚ) / (frequency : ℚ)

/-- The condition under which the one-time pass applies an event:
`payment_dict[DATE] < current_sim_date and unprocessed in payment_dict`. -/
def otApplies (current : ℚ) (e : OneTimeE) : Bool :=
  decide ((e.date : ℚ) < current) && e.unprocessed.isSome

/-- One iteration of the one-time-payments `for` loop: the updated dict and
the amount this event contributes to `extra_payments` this period. -/
def procOneTime (current : ℚ) (e : OneTimeE) : OneTimeE × ℚ :=
  if otApplies current e then ({ e with unprocessed := none }, e.amount) else (e, 0)

/-- The recurring window test
`payment_dict[START_DATE] <= current_sim_date <= payment_dict[END_DATE]`. -/
def recurEligible (current : ℚ) (e : RecurE) : Bool :=
  decide ((e.start_date : ℚ) ≤ current) && decide (current ≤ (e.end_date : ℚ))

/-- One iteration of the recurring-payments `for` loop: if the window
contains the date, apply when `last >= period` (resetting `last` to 1),
otherwise increment `last`.  (`last` is always present here: the loop runs
only after `run_scenario` initialises it to 1.) -/
def procRecur (current : ℚ) (e : RecurE) : RecurE × ℚ :=
  if recurEligible current e then
    if e.period ≤ e.last.getD 1 then ({ e with last := some 1 }, e.amount)
    else ({ e with last := some (e.last.getD 1 + 1) }, 0)
  else (e, 0)

/-- An exception escaping the `while` loop, together with the state of the
two schedules (`self._one_time_payments`, `self._recurring_payments`) at the
moment it is raised. -/
structure StepErr where
  msg : String
  one_times : List OneTimeE
  recurrings : List RecurE
deriving DecidableEq, Repr

/-- One iteration of `run_scenario`'s `while` body.  Python evaluates
`365.25 / frequency` first (`ZeroDivisionError` when `frequency == 0`), then
`current_sim_date += ...` (`TypeError` when the start date was never set),
then the one-time pass, then `Loan.interest` (which may raise `ValueError`),
then the clamped standard payment, then - only if the balance is still at
least 0.01 - the recurring pass, and finally appends to the results. -/
def stepPeriod (frequency : ℤ) (rate standard_payment : ℚ) (st : LoopState) :
    Except StepErr LoopState :=
  if frequency = 0 then
    .error { msg := "ZeroDivisionError: float division by zero",
             one_times := st.one_times, recurrings := st.recurrings }
  else
    match st.current with
    | none =>
      .error { msg := "TypeError: unsupported operand type for +: NoneType and timedelta",
               one_times := st.one_times, recurrings := st.recurrings }
    | some cur0 =>
      let current := cur0 + stepDays frequency
      let ot := st.one_times.map (procOneTime current)
      let one_times := ot.map Prod.fst
      let extra1 := (ot.map Prod.snd).sum
      let rem1 := st.remaining - extra1
      match Loan.interest rem1 rate frequency with
      | .error e => .error { msg := e, one_times := one_times, recurrings := st.recurrings }
      | .ok i =>
        let pp0 := standard_payment - i
        let pp := if rem1 < pp0 then rem1 else pp0
        let rem2 := rem1 - pp
        let step2 :=
          if 1 / 100 ≤ rem2 then
            let rr := st.recurrings.map (procRecur current)
            (rr.map Prod.fst, (rr.map Prod.snd).sum)
          else (st.recurrings, (0 : ℚ))
        let rem3 := rem2 - step2.2
        .ok { remaining := rem3
              current := some current
              one_times := one_times
              recurrings := step2.1
              ci := (st.ci.headD 0 + i) :: st.ci
              cp := (st.cp.headD 0 + standard_payment + extra1 + step2.2) :: st.cp
              rp := rem3 :: st.rp
              tl := st.tl + 1 }

/-- The `while remaining_principal >= 0.01` loop, with fuel.  `none` means
the loop did not finish within the given number of iterations (the source
has no iteration cap, so the real loop would simply keep running). -/
def run_loop (frequency : ℤ) (rate standard_payment : ℚ) :
    ℕ → LoopState → Option (Except StepErr LoopState)
  | 0, st => if 1 / 100 ≤ st.remaining then none else some (.ok st)
  | fuel + 1, st =>
    if 1 / 100 ≤ st.remaining then
      match stepPeriod frequency rate standard_payment st with
      | .error e => some (.error e)
      | .ok st' => run_loop frequency rate standard_payment fuel st'
    else some (.ok st)

/-- The state just before the `while` loop: local variables read from the
loan, the initial result entries, `'unprocessed': True` added to every
one-time dict and `'last': 1` added to every recurring dict. -/
def initState (s : Scenario) : LoopState :=
  { remaining := s.loan.principal
    current := s.start_date.map (fun d => (d : ℚ))
    one_times := s.one_time_payments.map (fun e => { e with unprocessed := some true })
    recurrings := s.recurring_payments.map (fun e => { e with last := some 1 })
    ci := [0]
    cp := [0]
    rp := [s.loan.principal]
    tl := 0 }

/-- The post-run cleanup `del payment_dict[unprocessed]`. -/
def clearOneTime (e : OneTimeE) : OneTimeE := { e with unprocessed := none }

/-- The post-run cleanup `del payment_dict[last]`. -/
def clearRecur (e : RecurE) : RecurE := { e with last := none }

/-- Embedding of `Scenario.run_scenario`.  On normal completion it returns
the `Results` and the scenario with the transient keys removed; when the
loop raises, it returns the error and the scenario as mutated at the moment
of the raise (the cleanup at the end of the method is skipped).  `none`
means the loop exceeded the fuel (the real loop never terminates). -/
def Scenario.run_scenario (s : Scenario) (fuel : ℕ) :
    Option (Except String Results × Scenario) :=
  match run_loop s.loan.frequency s.loan.rate s.loan.payment fuel (initState s) with
  | none => none
  | some (.error e) =>
    some (.error e.msg,
      { s with one_time_payments := e.one_times, recurring_payments := e.recurrings })
  | some (.ok st) =>
    let results : Results :=
      { cumulative_interest := st.ci.reverse
        cumulative_payments := st.cp.reverse
        remaining_principal := st.rp.reverse
        total_interest := st.ci.headD 0
        total_length := st.tl
        total_payment := st.cp.headD 0 }
    some (.ok results,
      { s with one_time_payments := st.one_times.map clearOneTime
               recurring_payments := st.recurrings.map clearRecur })

/-- The state of the `while` loop after exactly `k` completed iterations
(`none` when the loop stopped, raised, or would have raised earlier). -/
def loop_iter (frequency : ℤ) (rate standard_payment : ℚ) :
    ℕ → LoopState → Option LoopState
  | 0, st => some st
  | k + 1, st =>
    if 1 / 100 ≤ st.remaining then
      match stepPeriod frequency rate standard_payment st with
      | .ok st' => loop_iter frequency rate standard_payment k st'
      | .error _ => none
    else none

/-- `k`-fold iteration of the loop body alone (no `while` condition);
used to phrase how the balance evolves when the loop cannot stop. -/
def step_iter (frequency : ℤ) (rate standard_payment : ℚ) :
    ℕ → LoopState → Except StepErr LoopState
  | 0, st => .ok st
  | k + 1, st =>
    match stepPeriod frequency rate standard_payment st with
    | .ok st' => step_iter frequency rate standard_payment k st'
    | .error e => .error e

/-- The balance after `k` iterations of the loop body, starting from the
initial state of `run_scenario` on `s`. -/
def iter_remaining (s : Scenario) (k : ℕ) : Option ℚ :=
  match step_iter s.loan.frequency s.loan.rate s.loan.payment k (initState s) with
  | .ok st => some st.remaining
  | .error _ => none

/-- `k`-fold application of the recurring-payment loop body to a single
schedule entry at a fixed simulated date (one application per eligible
payment cycle). -/
def recur_trace (current : ℚ) (e : RecurE) : ℕ → RecurE
  | 0 => e
  | k + 1 => (procRecur current (recur_trace current e k)).1

/-- Results extractor: the `Results` of a normally completed run. -/
def runOkResults (o : Option (Except String Results × Scenario)) : Option Results :=
  match o with
  | some (.ok r, _) => some r
  | _ => none

/-- The scenario object left behind by a run that raised. -/
def runErrScenario (o : Option (Except String Results × Scenario)) : Option Scenario :=
  match o with
  | some (.error _, s) => some s
  | _ => none

/-- The exception message of a run that raised. -/
def runErrMsg (o : Option (Except String Results × Scenario)) : Option String :=
  match o with
  | some (.error m, _) => some m
  | _ => none

/-- Entry `i` of `cumulative_payments` of a completed run. -/
def runCP (o : Option (Except String Results × Scenario)) (i : ℕ) : Option ℚ :=
  (runOkResults o).bind fun r => r.cumulative_payments[i]?

/-- Entry `i` of `remaining_principal` of a completed run. -/
def runRP (o : Option (Except String Results × Scenario)) (i : ℕ) : Option ℚ :=
  (runOkResults o).bind fun r => r.remaining_principal[i]?

/-- The final entry of `remaining_principal` of a completed run. -/
def runLastRP (o : Option (Except String Results × Scenario)) : Option ℚ :=
  (runOkResults o).bind fun r => r.remaining_principal.getLast?

/-- Whether the last entry of a list is strictly below a cutoff. -/
def lastLTb (l : List ℚ) (c : ℚ) : Bool :=
  match l.getLast? with
  | some q => decide (q < c)
  | none => false

/-- Pointwise order on optional rationals (`false` when either is absent). -/
def opt_le (a b : Option ℚ) : Bool :=
  match a, b with
  | some x, some y => decide (x ≤ y)
  | _, _ => false

/-- A concrete scenario with a `period = 2` recurring payment eligible from
the very first cycle: interest-free loan of 100, standard payment 30,
recurring extra 10 every other cycle. -/
def scnPeriod2 : Scenario :=
  { loan := { frequency := 1, length := 30, payment := 30, principal := 100, rate := 0 },
    start_date := some 0, one_time_payments := [],
    recurring_payments :=
      [{ start_date := 0, end_date := 1000000, amount := 10, period := 2, last := none }] }

/-- A concrete scenario whose one-time payment is dated exactly on the
fourth simulated period: at `frequency = 1` each period advances by
365.25 days, so period 4 falls exactly 1461 whole days after the start. -/
def scnEqualDate : Scenario :=
  { loan := { frequency := 1, length := 30, payment := 10, principal := 100, rate := 0 },
    start_date := some 0,
    one_time_payments := [{ date := 1461, amount := 50, unprocessed := none }],
    recurring_payments := [] }

/-- A concrete scenario (rate 400%, standard payment 0, huge recurring
payment every other cycle) whose run completes although the balance first
grows: `remaining_principal = [100, 500, -7500]`. -/
def scnIncrease : Scenario :=
  { loan := { frequency := 1, length := 1, payment := 0, principal := 100, rate := 4 },
    start_date := some 0, one_time_payments := [],
    recurring_payments :=
      [{ start_date := 0, end_date := 1000000, amount := 10000, period := 2, last := none }] }

/-- A concrete scenario whose run raises `ValueError` inside `Loan.interest`
(a one-time payment of 200 overshoots the balance of 100) while a recurring
entry is on the schedule. -/
def scnErrResidual : Scenario :=
  { loan := { frequency := 1, length := 1, payment := 10, principal := 100, rate := 0 },
    start_date := some 0,
    one_time_payments := [{ date := 0, amount := 200, unprocessed := none }],
    recurring_payments :=
      [{ start_date := 0, end_date := 365, amount := 0, period := 1, last := none }] }

/-- A concrete scenario whose recurring payment of 200 overshoots the final
balance: the run completes with final balance -100. -/
def scnNegFinal : Scenario :=
  { loan := { frequency := 1, length := 1, payment := 0, principal := 100, rate := 0 },
    start_date := some 0, one_time_payments := [],
    recurring_payments :=
      [{ start_date := 0, end_date := 1000000, amount := 200, period := 1, last := none }] }

/-- A concrete scenario where a one-time payment of 200 overshoots the
pre-interest balance of 100. -/
def scnOvershoot : Scenario :=
  { loan := { frequency := 1, length := 1, payment := 10, principal := 100, rate := 0 },
    start_date := some 0,
    one_time_payments := [{ date := 0, amount := 200, unprocessed := none }],
    recurring_payments := [] }

/-- A plain scenario with no extra payments: 100 at 0% paid off by two
standard payments of 60. -/
def scnPlain : Scenario :=
  { loan := { frequency := 1, length := 1, payment := 60, principal := 100, rate := 0 },
    start_date := some 0, one_time_payments := [], recurring_payments := [] }

/-- A scenario whose standard payment (0) never exceeds the periodic
interest (0 at rate 0): the balance never moves and the loop never exits. -/
def scnDiverge : Scenario :=
  { loan := { frequency := 1, length := 1, payment := 0, principal := 100, rate := 0 },
    start_date := some 0, one_time_payments := [], recurring_payments := [] }

/-- A scenario whose `start_date` was never set. -/
def scnNoStart : Scenario :=
  { loan := { frequency := 1, length := 30, payment := 10, principal := 100, rate := 0 },
    start_date := none, one_time_payments := [], recurring_payments := [] }

/-- The non-transient fields of a one-time entry (everything the run may
not change). -/
def otStatic (e : OneTimeE) : ℤ × ℚ := (e.date, e.amount)

/-- The non-transient fields of a recurring entry. -/
def rcStatic (e : RecurE) : ℤ × ℤ × ℚ × ℤ := (e.start_date, e.end_date, e.amount, e.period)

/-- The successful result of one loop iteration, as a function of the
incoming state, the date before the step and the interest value; provably
the value produced by `stepPeriod` whenever it succeeds. -/
def stepOk (frequency : ℤ) (rate standard_payment : ℚ) (st : LoopState) (cur0 i : ℚ) :
    LoopState :=
  let current := cur0 + stepDays frequency
  let ot := st.one_times.map (procOneTime current)
  let extra1 := (ot.map Prod.snd).sum
  let rem1 := st.remaining - extra1
  let pp0 := standard_payment - i
  let pp := if rem1 < pp0 then rem1 else pp0
  let rem2 := rem1 - pp
  let step2 :=
    if 1 / 100 ≤ rem2 then
      let rr := st.recurrings.map (procRecur current)
      (rr.map Prod.fst, (rr.map Prod.snd).sum)
    else (st.recurrings, (0 : ℚ))
  let rem3 := rem2 - step2.2
  { remaining := rem3
    current := some current
    one_times := ot.map Prod.fst
    recurrings := step2.1
    ci := (st.ci.headD 0 + i) :: st.ci
    cp := (st.cp.headD 0 + standard_payment + extra1 + step2.2) :: st.cp
    rp := rem3 :: st.rp
    tl := st.tl + 1 }

/-- The loop invariant of a well-behaved run: the last recorded balance is
the running balance, the result lists are nonempty of length `tl + 1`, the
(reversed, newest-first) cumulative lists are non-increasing and the
(reversed) balance list non-decreasing, the balance never exceeds the
starting principal, and all scheduled amounts are nonnegative. -/
structure RunInv (p0 : ℚ) (st : LoopState) : Prop where
  rp_head : st.rp.headD 0 = st.remaining
  ci_ne : st.ci ≠ []
  cp_ne : st.cp ≠ []
  rp_ne : st.rp ≠ []
  rem_le : st.remaining ≤ p0
  ci_len : st.ci.length = st.tl + 1
  cp_len : st.cp.length = st.tl + 1
  rp_len : st.rp.length = st.tl + 1
  ci_mono : st.ci.Pairwise (fun a b => b ≤ a)
  cp_mono : st.cp.Pairwise (fun a b => b ≤ a)
  rp_mono : st.rp.Pairwise (fun a b => a ≤ b)
  ot_amt : ∀ e ∈ st.one_times, 0 ≤ e.amount
  rc_amt : ∀ e ∈ st.recurrings, 0 ≤ e.amount

/-- The expected results of running `scnPlain`. -/
def resPlain : Results :=
  { cumulative_interest := [0, 0, 0], cumulative_payments := [0, 60, 120],
    remaining_principal := [100, 40, 0], total_interest := 0, total_length := 2,
    total_payment := 120 }

/-- The loop state of `scnEqualDate` after one completed period. -/
def stEq1 : LoopState :=
  { remaining := 90, current := some (1461 / 4),
    one_times := [{ date := 1461, amount := 50, unprocessed := some true }],
    recurrings := [], ci := [0, 0], cp := [10, 0], rp := [90, 100], tl := 1 }

/-- The loop state of `scnEqualDate` after two completed periods. -/
def stEq2 : LoopState :=
  { remaining := 80, current := some (1461 / 2),
    one_times := [{ date := 1461, amount := 50, unprocessed := some true }],
    recurrings := [], ci := [0, 0, 0], cp := [20, 10, 0], rp := [80, 90, 100], tl := 2 }

/-- C5: the failing input for the driving-value precondition.  With
`frequency = 12`, `length = 30`, `rate = 0` set but `principal` (resp.
`payment`) left at its unset default `0`, `calculate_payment` (resp.
`calculate_principal`) returns `0` successfully instead of raising: both
call sites pass `_check_required_inputs` an `ignore_...=True` flag that is
already the default, so the driving-value check never runs. -/
theorem claim_C5_theorem :
    (Loan.mk 12 30 0 0 0).calculate_payment false = .ok (0, Loan.mk 12 30 0 0 0) ∧
    (Loan.mk 12 30 0 0 0).calculate_principal false = .ok (0, Loan.mk 12 30 0 0 0) :=
  ⟨by decide, by decide⟩

/-- C10: only the standard payment is clamped to the remaining balance.
`scnPlain` ends exactly at 0 (standard payment clamped); `scnNegFinal`'s
recurring payment of 200 is subtracted in full, completing the run with a
strictly negative final balance; `scnOvershoot`'s one-time payment of 200
drives the balance to -100 before interest, so `Loan.interest` raises
`ValueError` mid-run. -/
theorem claim_C10_theorem :
    runLastRP (scnPlain.run_scenario 5) = some 0 ∧
    runLastRP (scnNegFinal.run_scenario 5) = some (-100) ∧ (-100 : ℚ) < 0 ∧
    runErrMsg (scnOvershoot.run_scenario 5) =
      some "Principal must be greater than or equal to zero." :=
  ⟨by decide, by decide, by decide, by decide⟩

/-- C1 counterexample: in `scnPeriod2` the very first payment cycle lies in
the recurring window (its date `stepDays 1` is between start 0 and end
1000000), yet the cumulative payment recorded after cycle 1 is just the
standard payment 30 - the recurring 10 was *not* applied on the first
eligible cycle as the claim demands (it would have given 40). -/
theorem claim_C1_counterexample :
    recurEligible (0 + stepDays 1)
      { start_date := 0, end_date := 1000000, amount := 10, period := 2, last := some 1 } = true ∧
    runCP (scnPeriod2.run_scenario 10) 0 = some 0 ∧
    runCP (scnPeriod2.run_scenario 10) 1 = some 30 ∧
    (30 : ℚ) ≠ 0 + 30 + 10 :=
  ⟨by decide, by decide, by decide, by decide⟩

/-- C2 counterexample: in `scnEqualDate` the fourth simulated period falls
exactly on day 1461, on (hence on-or-after) the one-time event's date, yet
the balance after period 4 is 60 = 70 - 10: only the standard payment was
taken, not the 50 the claim requires there (which would leave 10). -/
theorem claim_C2_counterexample :
    ((1461 : ℤ) : ℚ) ≤ 0 + 4 * stepDays 1 ∧
    runRP (scnEqualDate.run_scenario 10) 3 = some 70 ∧
    runRP (scnEqualDate.run_scenario 10) 4 = some 60 ∧
    (60 : ℚ) ≠ 70 - 50 - 10 :=
  ⟨by decide, by decide, by decide, by decide⟩

/-- C3 counterexample: `scnIncrease` completes normally (all `runRP`
projections are `some`), yet `remaining_principal` goes 100, 500, -7500:
the sequence is not non-increasing. -/
theorem claim_C3_counterexample :
    runRP (scnIncrease.run_scenario 10) 0 = some 100 ∧
    runRP (scnIncrease.run_scenario 10) 1 = some 500 ∧
    ¬ ((500 : ℚ) ≤ 100) :=
  ⟨by decide, by decide, by decide⟩

/-- C6 counterexample: at `frequency = 12`, `length = 30`, `rate = 0`,
`principal = 1000`, the stored payment is `round(1000/360, 2) = 2.78` and
`calculate_principal` then returns `2.78 * 360 = 1000.8`, which misses the
original principal by 0.8, far beyond the claimed 0.01 tolerance. -/
theorem claim_C6_counterexample :
    (Loan.mk 12 30 0 1000 0).calculate_payment true =
      .ok (139 / 50, Loan.mk 12 30 (139 / 50) 1000 0) ∧
    (Loan.mk 12 30 (139 / 50) 1000 0).calculate_principal false =
      .ok (5004 / 5, Loan.mk 12 30 (139 / 50) 1000 0) ∧
    ¬ (|(5004 / 5 : ℚ) - 1000| ≤ 1 / 100) :=
  ⟨by decide, by decide, by
    have h : (5004 / 5 : ℚ) - 1000 = 4 / 5 := by norm_num
    rw [h, abs_of_nonneg (by norm_num : (0 : ℚ) ≤ 4 / 5)]
    norm_num⟩

/-- C7 counterexample: `scnIncrease` has standard payment 0, not above the
first period's interest 400, yet its `run_scenario` loop terminates (the
run completes normally within 10 iterations) because the recurring payment
wipes out the balance - and the balance even decreases on the way. -/
theorem claim_C7_counterexample :
    scnIncrease.loan.payment = 0 ∧
    Loan.interest scnIncrease.loan.principal scnIncrease.loan.rate
      scnIncrease.loan.frequency = .ok 400 ∧
    (scnIncrease.loan.payment ≤ 400) ∧
    (runOkResults (scnIncrease.run_scenario 10)).isSome = true ∧
    runRP (scnIncrease.run_scenario 10) 2 = some (-7500) ∧
    ¬ ((500 : ℚ) ≤ -7500) :=
  ⟨by decide, by decide, by decide, by decide, by decide, by decide⟩

/-- C8 counterexample: `scnErrResidual.run_scenario` raises `ValueError`
mid-run, and the schedule it leaves behind differs from the original: the
recurring entry still carries the transient `'last': 1` key, so the
schedule is *not* observably unchanged after the error. -/
theorem claim_C8_counterexample :
    runErrMsg (scnErrResidual.run_scenario 5) =
      some "Principal must be greater than or equal to zero." ∧
    runErrScenario (scnErrResidual.run_scenario 5) ≠ some scnErrResidual :=
  ⟨by decide, by decide⟩

/-- C9 counterexample: on a scenario whose `start_date` was never set,
`add_recurring_payment` with the end date omitted raises `TypeError`
(`None + timedelta`) and stores nothing at all - there is no far-future
fallback end date in the code. -/
theorem claim_C9_counterexample :
    scnNoStart.add_recurring_payment 10 (some 0) none 1 =
      (.error "TypeError: unsupported operand type for +: NoneType and timedelta", scnNoStart) ∧
    scnNoStart.recurring_payments = [] :=
  ⟨by decide, rfl⟩

/-- Inversion for a successful `Loan.interest` call. -/
theorem interest_ok_elim (principal rate : ℚ) (frequency : ℤ) (i : ℚ)
    (h : Loan.interest principal rate frequency = .ok i) :
    0 < frequency ∧ 0 ≤ principal ∧ 0 ≤ rate ∧
      i = round2 (principal * (rate / (frequency : ℚ))) := by
  unfold Loan.interest at h
  by_cases h1 : frequency ≤ 0
  · simp [h1] at h
  by_cases h2 : principal < 0
  · simp [h1, h2] at h
  by_cases h3 : rate < 0
  · simp [h1, h2, h3] at h
  simp only [h1, h2, h3, if_false, Except.ok.injEq] at h
  exact ⟨by omega, by linarith, by linarith, h.symm⟩

/-- Introduction for a successful `Loan.interest` call. -/
theorem interest_eq_ok (principal rate : ℚ) (frequency : ℤ)
    (h1 : 0 < frequency) (h2 : 0 ≤ principal) (h3 : 0 ≤ rate) :
    Loan.interest principal rate frequency =
      .ok (round2 (principal * (rate / (frequency : ℚ)))) := by
  unfold Loan.interest
  rw [if_neg (by omega), if_neg (by linarith), if_neg (by linarith)]

/-- A successful loop iteration is exactly `stepOk` at the incoming date and
the computed interest. -/
theorem stepPeriod_ok_elim (frequency : ℤ) (rate standard_payment : ℚ) (st st' : LoopState)
    (h : stepPeriod frequency rate standard_payment st = .ok st') :
    ∃ cur0 i,
      st.current = some cur0 ∧ frequency ≠ 0 ∧
      Loan.interest
        (st.remaining -
          ((st.one_times.map (procOneTime (cur0 + stepDays frequency))).map Prod.snd).sum)
        rate frequency = .ok i ∧
      st' = stepOk frequency rate standard_payment st cur0 i := by
  unfold stepPeriod at h
  by_cases hf : frequency = 0
  · simp [hf] at h
  rw [if_neg hf] at h
  cases hcur : st.current with
  | none => rw [hcur] at h; exact absurd h (by simp)
  | some cur0 =>
    rw [hcur] at h
    simp only at h
    cases hint : Loan.interest
        (st.remaining -
          ((st.one_times.map (procOneTime (cur0 + stepDays frequency))).map Prod.snd).sum)
        rate frequency with
    | error e => rw [hint] at h; exact absurd h (by simp)
    | ok i =>
      rw [hint] at h
      simp only [Except.ok.injEq] at h
      exact ⟨cur0, i, rfl, hf, hint, h.symm⟩

/-- A loop iteration with a defined date, nonzero frequency and a
successful interest computation succeeds with value `stepOk`. -/
theorem stepPeriod_eq_ok (frequency : ℤ) (rate standard_payment : ℚ) (st : LoopState)
    (cur0 i : ℚ) (hcur : st.current = some cur0) (hf : frequency ≠ 0)
    (hint : Loan.interest
        (st.remaining -
          ((st.one_times.map (procOneTime (cur0 + stepDays frequency))).map Prod.snd).sum)
        rate frequency = .ok i) :
    stepPeriod frequency rate standard_payment st =
      .ok (stepOk frequency rate standard_payment st cur0 i) := by
  unfold stepPeriod
  rw [if_neg hf, hcur]
  simp only
  rw [hint]
  rfl

/-- C8 (amended): `add_one_time_payment` and `add_recurring_payment` raise
synchronously before any state mutation - whenever either returns an error
the scenario (loan and both schedules) is observably unchanged.  (For
`run_scenario` the claim fails: an error can leave transient keys on the
schedule, see the counterexample.) -/
theorem claim_C8_theorem (s : Scenario) (p1 : ℚ) (d1 : Option ℤ) (p2 : ℚ)
    (sd : Option ℤ) (ed : Option (Option ℤ)) (per : ℤ) (e1 e2 : String)
    (h1 : (s.add_one_time_payment p1 d1).1 = .error e1)
    (h2 : (s.add_recurring_payment p2 sd ed per).1 = .error e2) :
    (s.add_one_time_payment p1 d1).2 = s ∧ (s.add_recurring_payment p2 sd ed per).2 = s := by
  constructor
  · unfold Scenario.add_one_time_payment at h1 ⊢
    by_cases hp : p1 < 0
    · simp [hp]
    · cases d1 with
      | none => simp [hp, convert_string_to_datetime]
      | some d => simp [hp, convert_string_to_datetime] at h1
  · unfold Scenario.add_recurring_payment at h2 ⊢
    by_cases hp : p2 < 0
    · simp [hp]
    · cases sd with
      | none => simp [hp, convert_string_to_datetime]
      | some d =>
        cases hs : s.start_date with
        | none => simp [hp, hs, convert_string_to_datetime]
        | some t =>
          cases ed with
          | none =>
            by_cases hper : per ≤ 0
            · simp [hp, hs, hper, convert_string_to_datetime]
            · simp [hp, hs, hper, convert_string_to_datetime] at h2
          | some es =>
            cases es with
            | none => simp [hp, hs, convert_string_to_datetime]
            | some e3 =>
              by_cases hper : per ≤ 0
              · simp [hp, hs, hper, convert_string_to_datetime]
              · simp [hp, hs, hper, convert_string_to_datetime] at h2

/-- C8 witness: a failing `add_one_time_payment` and a failing
`add_recurring_payment` (negative amounts) leave the scenario unchanged. -/
theorem claim_C8_witness :
    (scnNoStart.add_one_time_payment (-1) (some 0)).1 =
      .error "Payment must be greater than or equal to zero." ∧
    (scnNoStart.add_recurring_payment (-1) (some 0) none 1).1 =
      .error "Payment must be greater than or equal to zero." ∧
    ((scnNoStart.add_one_time_payment (-1) (some 0)).2 = scnNoStart ∧
      (scnNoStart.add_recurring_payment (-1) (some 0) none 1).2 = scnNoStart) :=
  ⟨by decide, by decide,
    claim_C8_theorem scnNoStart (-1) (some 0) (-1) (some 0) none 1
      "Payment must be greater than or equal to zero."
      "Payment must be greater than or equal to zero." (by decide) (by decide)⟩

/-- C9 (amended): when the end date is omitted and the scenario has a start
date `t`, the stored end date is `t + 365 * length` days (the loan maturity
measured in 365-day years from the *scenario* start date); when the
scenario has no start date the call raises `TypeError` instead of using any
fallback. -/
theorem claim_C9_theorem (s s2 : Scenario) (p p2 : ℚ) (d d2 : ℤ) (per per2 : ℤ) (t : ℤ)
    (ht : s.start_date = some t) (hp : 0 ≤ p) (hper : 1 ≤ per)
    (h2 : s2.start_date = none) (hp2 : 0 ≤ p2) :
    s.add_recurring_payment p (some d) none per =
      (.ok (), { s with recurring_payments := s.recurring_payments ++
        [{ start_date := d, end_date := t + 365 * s.loan.length, amount := p,
           period := per, last := none }] }) ∧
    s2.add_recurring_payment p2 (some d2) none per2 =
      (.error "TypeError: unsupported operand type for +: NoneType and timedelta", s2) := by
  constructor
  · unfold Scenario.add_recurring_payment
    rw [ht]
    simp [not_lt.mpr hp, convert_string_to_datetime, show ¬ per ≤ 0 by omega]
  · unfold Scenario.add_recurring_payment
    rw [h2]
    simp [not_lt.mpr hp2, convert_string_to_datetime]

/-- C9 witness: on `scnPlain` (start date 0, length 1) an omitted end date
stores maturity `0 + 365 * 1`; on `scnNoStart` the same call raises. -/
theorem claim_C9_witness :
    scnPlain.start_date = some 0 ∧ (0 : ℚ) ≤ 5 ∧ (1 : ℤ) ≤ 2 ∧
    scnNoStart.start_date = none ∧ (0 : ℚ) ≤ 7 ∧
    (scnPlain.add_recurring_payment 5 (some 9) none 2 =
      (.ok (), { scnPlain with recurring_payments := scnPlain.recurring_payments ++
        [{ start_date := 9, end_date := 0 + 365 * scnPlain.loan.length, amount := 5,
           period := 2, last := none }] }) ∧
      scnNoStart.add_recurring_payment 7 (some 3) none 4 =
        (.error "TypeError: unsupported operand type for +: NoneType and timedelta",
          scnNoStart)) :=
  ⟨rfl, by norm_num, by norm_num, rfl, by norm_num,
    claim_C9_theorem scnPlain scnNoStart 5 7 9 3 2 4 0 rfl (by norm_num) (by norm_num)
      rfl (by norm_num)⟩

/-- The recurring-pass body never changes the window, amount or period of an
entry - only its `last` counter. -/
theorem recur_trace_static (c : ℚ) (e : RecurE) (k : ℕ) :
    (recur_trace c e k).start_date = e.start_date ∧
    (recur_trace c e k).end_date = e.end_date ∧
    (recur_trace c e k).amount = e.amount ∧
    (recur_trace c e k).period = e.period := by
  induction k with
  | zero => exact ⟨rfl, rfl, rfl, rfl⟩
  | succ k ih =>
    obtain ⟨h1, h2, h3, h4⟩ := ih
    have hstep : recur_trace c e (k + 1) = (procRecur c (recur_trace c e k)).1 := rfl
    rw [hstep]
    unfold procRecur
    by_cases hw : recurEligible c (recur_trace c e k)
    · rw [if_pos hw]
      by_cases hc : (recur_trace c e k).period ≤ (recur_trace c e k).last.getD 1
      · rw [if_pos hc]
        exact ⟨h1, h2, h3, h4⟩
      · rw [if_neg hc]
        exact ⟨h1, h2, h3, h4⟩
    · rw [if_neg hw]
      exact ⟨h1, h2, h3, h4⟩

/-- Eligibility only looks at the static window, so it is stable along the
trace. -/
theorem recur_trace_eligible (c : ℚ) (e : RecurE) (k : ℕ) :
    recurEligible c (recur_trace c e k) = recurEligible c e := by
  obtain ⟨h1, h2, -, -⟩ := recur_trace_static c e k
  unfold recurEligible
  rw [h1, h2]

/-- Along an always-eligible trace started at counter 1, after `k` cycles
the counter is `k % period + 1`. -/
theorem recur_trace_last (c : ℚ) (e : RecurE) (hp : 1 ≤ e.period)
    (hw : recurEligible c e = true) (hl : e.last = some 1) : ∀ k : ℕ,
    (recur_trace c e k).last = some ((k : ℤ) % e.period + 1) := by
  intro k
  induction k with
  | zero =>
    show e.last = _
    rw [hl]
    norm_num
  | succ k ih =>
    have hper := (recur_trace_static c e k).2.2.2
    have hel : recurEligible c (recur_trace c e k) = true := by
      rw [recur_trace_eligible]; exact hw
    have hstep : recur_trace c e (k + 1) = (procRecur c (recur_trace c e k)).1 := rfl
    rw [hstep]
    unfold procRecur
    rw [hel, ih, hper]
    simp only [Option.getD_some, eq_self_iff_true, if_true]
    have hm0 : 0 ≤ (k : ℤ) % e.period := Int.emod_nonneg _ (by omega)
    have hmlt : (k : ℤ) % e.period < e.period := Int.emod_lt_of_pos _ (by omega)
    have hdecomp : ((k : ℤ) + 1) % e.period = ((k : ℤ) % e.period + 1) % e.period := by
      conv_lhs => rw [show ((k : ℤ) + 1) =
        ((k : ℤ) % e.period + 1) + e.period * ((k : ℤ) / e.period) by
          rw [add_right_comm]
          rw [Int.emod_add_ediv (k : ℤ) e.period]]
      rw [Int.add_mul_emod_self_left]
    have hcast : (((k + 1 : ℕ)) : ℤ) = (k : ℤ) + 1 := by push_cast; ring
    by_cases hc : e.period ≤ (k : ℤ) % e.period + 1
    · have hz : ((k : ℤ) % e.period + 1) % e.period = 0 := by
        rw [show (k : ℤ) % e.period + 1 = e.period by omega, Int.emod_self]
      rw [if_pos hc, hcast, hdecomp, hz]
      norm_num
    · have hz : ((k : ℤ) % e.period + 1) % e.period = (k : ℤ) % e.period + 1 :=
        Int.emod_eq_of_lt (by omega) (by omega)
      rw [if_neg hc, hcast, hdecomp, hz]

/-- C1 (amended): a recurring payment whose window always contains the
simulated date, started as `run_scenario` starts it (`last = 1`), is applied
on eligible cycle `k+1` exactly when `period` divides `k+1`: the first
application is on the `period`-th eligible cycle, so for `period >= 2` the
first eligible cycle is *skipped*, and thereafter it applies every
`period`-th eligible cycle. -/
theorem claim_C1_theorem (c : ℚ) (sd ed : ℤ) (a : ℚ) (p : ℤ) (k : ℕ)
    (hp : 1 ≤ p)
    (hw : recurEligible c
      { start_date := sd, end_date := ed, amount := a, period := p, last := some 1 } = true) :
    (procRecur c (recur_trace c
        { start_date := sd, end_date := ed, amount := a, period := p, last := some 1 } k)).2 =
      if p ∣ ((k : ℤ) + 1) then a else 0 := by
  set e : RecurE := { start_date := sd, end_date := ed, amount := a, period := p, last := some 1 }
    with he
  have hst := recur_trace_static c e k
  have hel : recurEligible c (recur_trace c e k) = true := by
    rw [recur_trace_eligible]; exact hw
  have hlast := recur_trace_last c e (by rw [he]; exact hp) hw rfl k
  have hper : (recur_trace c e k).period = p := hst.2.2.2
  have hamt : (recur_trace c e k).amount = a := hst.2.2.1
  unfold procRecur
  rw [hel, hlast, hper, hamt]
  simp only [Option.getD_some, if_true]
  have hm0 : 0 ≤ (k : ℤ) % p := Int.emod_nonneg _ (by omega)
  have hmlt : (k : ℤ) % p < p := Int.emod_lt_of_pos _ (by omega)
  have hdecomp : ((k : ℤ) + 1) % p = ((k : ℤ) % p + 1) % p := by
    conv_lhs => rw [show ((k : ℤ) + 1) = ((k : ℤ) % p + 1) + p * ((k : ℤ) / p) by
      rw [add_right_comm]
      rw [Int.emod_add_ediv (k : ℤ) p]]
    rw [Int.add_mul_emod_self_left]
  by_cases hc : p ≤ (k : ℤ) % p + 1
  · have hdvd : p ∣ ((k : ℤ) + 1) := by
      rw [Int.dvd_iff_emod_eq_zero, hdecomp, show (k : ℤ) % p + 1 = p by omega, Int.emod_self]
    simp [hc, hdvd]
  · have hndvd : ¬ p ∣ ((k : ℤ) + 1) := by
      rw [Int.dvd_iff_emod_eq_zero, hdecomp, Int.emod_eq_of_lt (by omega) (by omega)]
      omega
    simp [hc, hndvd]

/-- C1 witness: with `period = 2` and an always-eligible window, cycle 1 is
skipped (2 does not divide 1). -/
theorem claim_C1_witness :
    (1 : ℤ) ≤ 2 ∧
    recurEligible 5
      { start_date := 0, end_date := 1000, amount := 10, period := 2, last := some 1 } = true ∧
    (procRecur 5 (recur_trace 5
        { start_date := 0, end_date := 1000, amount := 10, period := 2, last := some 1 } 0)).2 =
      if (2 : ℤ) ∣ ((0 : ℕ) : ℤ) + 1 then 10 else 0 :=
  ⟨by decide, by decide, claim_C1_theorem 5 0 1000 10 2 0 (by decide) (by decide)⟩

/-- `round` is monotone. -/
theorem round_mono_rat {x y : ℚ} (h : x ≤ y) : round x ≤ round y := by
  rw [round_eq, round_eq]
  exact Int.floor_le_floor (by linarith)

/-- `round2` is monotone. -/
theorem round2_mono {x y : ℚ} (h : x ≤ y) : round2 x ≤ round2 y := by
  unfold round2
  have : round (x * 100) ≤ round (y * 100) := round_mono_rat (by linarith)
  have hc : ((round (x * 100) : ℤ) : ℚ) ≤ ((round (y * 100) : ℤ) : ℚ) := by exact_mod_cast this
  linarith

/-- `round2 0 = 0`. -/
theorem round2_zero : round2 0 = 0 := by
  unfold round2
  norm_num

/-- `round2` of a nonnegative quantity is nonnegative. -/
theorem round2_nonneg {x : ℚ} (h : 0 ≤ x) : 0 ≤ round2 x := by
  have := round2_mono h
  rw [round2_zero] at this
  exact this

/-- Rounding to two decimals moves a value by at most `1/200`. -/
theorem round2_sub_abs (x : ℚ) : |round2 x - x| ≤ 1 / 200 := by
  unfold round2
  have h : |x * 100 - round (x * 100)| ≤ 1 / 2 := abs_sub_round (x * 100)
  rw [abs_sub_comm] at h
  have hrw : ((round (x * 100) : ℤ) : ℚ) / 100 - x =
      (((round (x * 100) : ℤ) : ℚ) - x * 100) / 100 := by ring
  rw [hrw, abs_div, abs_of_pos (by norm_num : (0 : ℚ) < 100)]
  rw [div_le_div_iff (by norm_num) (by norm_num)]
  linarith

/-- A successful `calculate_form_factor` yields a positive factor. -/
theorem calculate_form_factor_pos (frequency length : ℤ) (rate F : ℚ)
    (h : Loan.calculate_form_factor frequency length rate = .ok F) : 0 < F := by
  unfold Loan.calculate_form_factor at h
  by_cases h1 : frequency ≤ 0
  · simp [h1] at h
  by_cases h2 : length ≤ 0
  · simp [h1, h2] at h
  by_cases h3 : rate < 0
  · simp [h1, h2, h3] at h
  rw [if_neg h1, if_neg h2, if_neg h3] at h
  simp only at h
  have hn1 : (1 : ℤ) ≤ length * frequency := by
    have : (1 : ℤ) ≤ length := by omega
    have : (1 : ℤ) ≤ frequency := by omega
    nlinarith
  by_cases h0 : rate = 0
  · rw [if_pos h0, Except.ok.injEq] at h
    rw [← h]
    apply one_div_pos.mpr
    exact_mod_cast lt_of_lt_of_le zero_lt_one hn1
  · rw [if_neg h0, Except.ok.injEq] at h
    rw [← h]
    have hfq : (0 : ℚ) < (frequency : ℚ) := by exact_mod_cast by omega
    have hr : 0 < rate / (frequency : ℚ) := div_pos (lt_of_le_of_ne (by linarith) (Ne.symm h0)) hfq
    have hnn : (length * frequency).toNat ≠ 0 := by omega
    have hf1 : 1 < (1 + rate / (frequency : ℚ)) ^ (length * frequency).toNat :=
      one_lt_pow (by linarith) hnn
    apply div_pos (mul_pos (by linarith) hr) (by linarith)

/-- C6 (amended): the payment/principal derivation round-trips up to
`1/200 * (1 + 1/F)` where `F` is the form factor - each `round(·, 2)` can
move a value by up to 1/200, and the payment-side error is amplified by
`1/F` on the way back.  (The claimed fixed 0.01 bound fails whenever
`F < 1`, e.g. at rate 0; see the counterexample.) -/
theorem claim_C6_theorem (frequency length : ℤ) (rate p F pay p2 : ℚ) (l1 l2 : Loan)
    (hp : 0 ≤ p)
    (hF : Loan.calculate_form_factor frequency length rate = .ok F)
    (hpay : (Loan.mk frequency length 0 p rate).calculate_payment true = .ok (pay, l1))
    (hpr : l1.calculate_principal false = .ok (p2, l2)) :
    |p2 - p| ≤ 1 / 200 + 1 / (200 * F) := by
  have hFpos := calculate_form_factor_pos frequency length rate F hF
  have h1 : ¬ frequency ≤ 0 := by
    intro hc
    unfold Loan.calculate_form_factor at hF
    simp [hc] at hF
  have h2 : ¬ length ≤ 0 := by
    intro hc
    unfold Loan.calculate_form_factor at hF
    simp [h1, hc] at hF
  have h3 : ¬ rate < 0 := by
    intro hc
    unfold Loan.calculate_form_factor at hF
    simp [h1, h2, hc] at hF
  have hchk : (Loan.mk frequency length 0 p rate).check_required_inputs true true = true := by
    unfold Loan.check_required_inputs
    simp [h1, h2, h3]
  have hpay0 : 0 ≤ round2 (p * F) := round2_nonneg (mul_nonneg hp hFpos.le)
  have hcomp : (Loan.mk frequency length 0 p rate).calculate_payment true =
      .ok (round2 (p * F), Loan.mk frequency length (round2 (p * F)) p rate) := by
    unfold Loan.calculate_payment Loan.set_payment
    simp [hchk, hF, not_lt.mpr hpay0]
  rw [hcomp, Except.ok.injEq, Prod.mk.injEq] at hpay
  obtain ⟨hpayv, hl1⟩ := hpay
  have hchk2 : (Loan.mk frequency length (round2 (p * F)) p rate).check_required_inputs
      true true = true := by
    unfold Loan.check_required_inputs
    simp [h1, h2, h3]
  have hcomp2 : (Loan.mk frequency length (round2 (p * F)) p rate).calculate_principal false =
      .ok (round2 (round2 (p * F) / F), Loan.mk frequency length (round2 (p * F)) p rate) := by
    unfold Loan.calculate_principal
    simp [hchk2, hF]
  rw [← hl1, hcomp2, Except.ok.injEq, Prod.mk.injEq] at hpr
  obtain ⟨hp2v, -⟩ := hpr
  have hpayval : pay = round2 (p * F) := hpayv.symm
  have hp2val : p2 = round2 (pay / F) := by
    rw [← hp2v, hpayval]
  have e1 : |pay - p * F| ≤ 1 / 200 := by
    rw [hpayval]
    exact round2_sub_abs (p * F)
  have e2 : |p2 - pay / F| ≤ 1 / 200 := by
    rw [hp2val]
    exact round2_sub_abs (pay / F)
  have key : p2 - p = (p2 - pay / F) + (pay - p * F) / F := by
    field_simp
    ring
  have e3 : |(pay - p * F) / F| ≤ (1 / 200) / F := by
    rw [abs_div, abs_of_pos hFpos]
    exact (div_le_div_right hFpos).mpr e1
  calc |p2 - p| = |(p2 - pay / F) + (pay - p * F) / F| := by rw [key]
    _ ≤ |p2 - pay / F| + |(pay - p * F) / F| := abs_add _ _
    _ ≤ 1 / 200 + (1 / 200) / F := add_le_add e2 e3
    _ = 1 / 200 + 1 / (200 * F) := by rw [div_div]

/-- C6 witness: at `frequency = 2`, `length = 1`, `rate = 0`,
`principal = 100` the round trip is exact, within the amended bound
`1/200 + 1/(200 * (1/2))`. -/
theorem claim_C6_witness :
    (0 : ℚ) ≤ 100 ∧
    Loan.calculate_form_factor 2 1 0 = .ok (1 / 2) ∧
    (Loan.mk 2 1 0 100 0).calculate_payment true = .ok (50, Loan.mk 2 1 50 100 0) ∧
    (Loan.mk 2 1 50 100 0).calculate_principal false = .ok (100, Loan.mk 2 1 50 100 0) ∧
    |(100 : ℚ) - 100| ≤ 1 / 200 + 1 / (200 * (1 / 2)) :=
  ⟨by norm_num, by decide, by decide, by decide,
    claim_C6_theorem 2 1 0 100 (1 / 2) 50 100 (Loan.mk 2 1 50 100 0) (Loan.mk 2 1 50 100 0)
      (by norm_num) (by decide) (by decide) (by decide)⟩

/-- One loop iteration of a scenario with no extra-payment events whose
standard payment does not exceed `round2 (p0 * rate/frequency)`: the step
succeeds and the balance does not decrease. -/
theorem step_diverge (frequency : ℤ) (rate standard_payment p0 : ℚ) (st : LoopState)
    (hf : 1 ≤ frequency) (hr : 0 ≤ rate)
    (hcov : standard_payment ≤ round2 (p0 * (rate / (frequency : ℚ))))
    (hp0 : 1 / 100 ≤ p0)
    (hot : st.one_times = []) (hrc : st.recurrings = []) (hcur : st.current.isSome)
    (hrem : p0 ≤ st.remaining) :
    ∃ st', stepPeriod frequency rate standard_payment st = .ok st' ∧
      st'.one_times = [] ∧ st'.recurrings = [] ∧ st'.current.isSome ∧
      st.remaining ≤ st'.remaining := by
  obtain ⟨cur0, hcur0⟩ := Option.isSome_iff_exists.mp hcur
  have hfq : (0 : ℚ) < (frequency : ℚ) := by exact_mod_cast by omega
  have hi : Loan.interest
      (st.remaining -
        ((st.one_times.map (procOneTime (cur0 + stepDays frequency))).map Prod.snd).sum)
      rate frequency = .ok (round2 (st.remaining * (rate / (frequency : ℚ)))) := by
    rw [hot]
    simp only [List.map_nil, List.sum_nil, sub_zero]
    exact interest_eq_ok _ _ _ (by omega) (by linarith) hr
  refine ⟨_, stepPeriod_eq_ok frequency rate standard_payment st cur0 _ hcur0 (by omega) hi,
    ?_, ?_, ?_, ?_⟩
  · simp [stepOk, hot]
  · simp only [stepOk, hrc, hot]
    split <;> simp
  · simp [stepOk]
  · simp only [stepOk, hot, hrc, List.map_nil, List.sum_nil, sub_zero]
    have hmono : round2 (p0 * (rate / (frequency : ℚ))) ≤
        round2 (st.remaining * (rate / (frequency : ℚ))) :=
      round2_mono (by
        apply mul_le_mul_of_nonneg_right hrem
        exact div_nonneg hr hfq.le)
    set i := round2 (st.remaining * (rate / (frequency : ℚ))) with hidef
    have hstd : standard_payment ≤ i := le_trans hcov hmono
    have hclamp : ¬ (st.remaining < standard_payment - i) := by
      intro hcl
      have : standard_payment - i ≤ 0 := by linarith
      linarith
    rw [if_neg hclamp]
    split
    · simp only [List.map_nil, List.sum_nil]
      linarith
    · simp only
      linarith

/-- With no extra events and the standard payment not above the first
period's interest, the `while` loop exhausts any fuel: it never
terminates. -/
theorem run_loop_diverge (frequency : ℤ) (rate standard_payment p0 : ℚ)
    (hf : 1 ≤ frequency) (hr : 0 ≤ rate)
    (hcov : standard_payment ≤ round2 (p0 * (rate / (frequency : ℚ))))
    (hp0 : 1 / 100 ≤ p0) :
    ∀ (fuel : ℕ) (st : LoopState), st.one_times = [] → st.recurrings = [] →
      st.current.isSome → p0 ≤ st.remaining →
      run_loop frequency rate standard_payment fuel st = none := by
  intro fuel
  induction fuel with
  | zero =>
    intro st h1 h2 h3 h4
    unfold run_loop
    rw [if_pos (le_trans hp0 h4)]
  | succ fuel ih =>
    intro st h1 h2 h3 h4
    unfold run_loop
    rw [if_pos (le_trans hp0 h4)]
    obtain ⟨st', hstep, ho, hc, hcur, hrem⟩ :=
      step_diverge frequency rate standard_payment p0 st hf hr hcov hp0 h1 h2 h3 h4
    rw [hstep]
    exact ih st' ho hc hcur (le_trans h4 hrem)

/-- Unrolling `step_iter` from the far end. -/
theorem step_iter_succ (frequency : ℤ) (rate standard_payment : ℚ) : ∀ (k : ℕ) (st : LoopState),
    step_iter frequency rate standard_payment (k + 1) st =
      match step_iter frequency rate standard_payment k st with
      | .ok st' => stepPeriod frequency rate standard_payment st'
      | .error e => .error e := by
  intro k
  induction k with
  | zero =>
    intro st
    show (match stepPeriod frequency rate standard_payment st with
      | .ok st1 => step_iter frequency rate standard_payment 0 st1
      | .error e => .error e) = stepPeriod frequency rate standard_payment st
    cases h : stepPeriod frequency rate standard_payment st <;> rfl
  | succ k ih =>
    intro st
    have hl : step_iter frequency rate standard_payment (k + 1 + 1) st =
        match stepPeriod frequency rate standard_payment st with
        | .ok st1 => step_iter frequency rate standard_payment (k + 1) st1
        | .error e => .error e := rfl
    have hr2 : step_iter frequency rate standard_payment (k + 1) st =
        match stepPeriod frequency rate standard_payment st with
        | .ok st1 => step_iter frequency rate standard_payment k st1
        | .error e => .error e := rfl
    rw [hl, hr2]
    cases h : stepPeriod frequency rate standard_payment st with
    | error e => rfl
    | ok st1 => exact ih st1

/-- Iterating the loop body of a diverging scenario always succeeds,
preserves the (empty) schedules and never lowers the balance below its
start. -/
theorem step_iter_diverge (frequency : ℤ) (rate standard_payment p0 : ℚ)
    (hf : 1 ≤ frequency) (hr : 0 ≤ rate)
    (hcov : standard_payment ≤ round2 (p0 * (rate / (frequency : ℚ))))
    (hp0 : 1 / 100 ≤ p0) :
    ∀ (k : ℕ) (st : LoopState), st.one_times = [] → st.recurrings = [] →
      st.current.isSome → p0 ≤ st.remaining →
      ∃ st', step_iter frequency rate standard_payment k st = .ok st' ∧
        st'.one_times = [] ∧ st'.recurrings = [] ∧ st'.current.isSome ∧
        st.remaining ≤ st'.remaining := by
  intro k
  induction k with
  | zero =>
    intro st h1 h2 h3 h4
    exact ⟨st, rfl, h1, h2, h3, le_refl _⟩
  | succ k ih =>
    intro st h1 h2 h3 h4
    obtain ⟨st1, hstep, ho, hc, hcur, hrem⟩ :=
      step_diverge frequency rate standard_payment p0 st hf hr hcov hp0 h1 h2 h3 h4
    obtain ⟨st', hiter, ho', hc', hcur', hrem'⟩ :=
      ih st1 ho hc hcur (le_trans h4 hrem)
    refine ⟨st', ?_, ho', hc', hcur', le_trans hrem hrem'⟩
    show (match stepPeriod frequency rate standard_payment st with
      | .ok st' => step_iter frequency rate standard_payment k st'
      | .error e => .error e) = .ok st'
    rw [hstep]
    exact hiter

/-- C7 (amended): for a scenario with *no extra-payment events*, a set
start date, valid frequency and rate, initial principal at least 0.01 and
standard payment at most the first period's interest
`round2 (principal * rate/frequency)`, the loop never terminates
(`run_scenario` exhausts any fuel) and the balance never decreases from one
iteration to the next.  (With extra-payment events the original claim fails,
see the counterexample.) -/
theorem claim_C7_theorem (s : Scenario) (t : ℤ) (fuel k : ℕ)
    (ht : s.start_date = some t)
    (hot : s.one_time_payments = []) (hrc : s.recurring_payments = [])
    (hf : 1 ≤ s.loan.frequency) (hr : 0 ≤ s.loan.rate)
    (hp0 : 1 / 100 ≤ s.loan.principal)
    (hcov : s.loan.payment ≤
      round2 (s.loan.principal * (s.loan.rate / (s.loan.frequency : ℚ)))) :
    s.run_scenario fuel = none ∧
    opt_le (iter_remaining s k) (iter_remaining s (k + 1)) = true := by
  have hinit_ot : (initState s).one_times = [] := by simp [initState, hot]
  have hinit_rc : (initState s).recurrings = [] := by simp [initState, hrc]
  have hinit_cur : (initState s).current.isSome = true := by simp [initState, ht]
  have hinit_rem : s.loan.principal ≤ (initState s).remaining := le_refl _
  constructor
  · unfold Scenario.run_scenario
    rw [run_loop_diverge s.loan.frequency s.loan.rate s.loan.payment s.loan.principal
      hf hr hcov hp0 fuel (initState s) hinit_ot hinit_rc hinit_cur hinit_rem]
  · obtain ⟨stk, hk, hko, hkc, hkcur, hkrem⟩ :=
      step_iter_diverge s.loan.frequency s.loan.rate s.loan.payment s.loan.principal
        hf hr hcov hp0 k (initState s) hinit_ot hinit_rc hinit_cur hinit_rem
    obtain ⟨stk', hstep, -, -, -, hrem'⟩ :=
      step_diverge s.loan.frequency s.loan.rate s.loan.payment s.loan.principal stk
        hf hr hcov hp0 hko hkc hkcur (le_trans hinit_rem hkrem)
    have hk1 : step_iter s.loan.frequency s.loan.rate s.loan.payment (k + 1) (initState s) =
        .ok stk' := by
      rw [step_iter_succ, hk]
      exact hstep
    unfold iter_remaining opt_le
    rw [hk, hk1]
    simp only [decide_eq_true_eq]
    exact hrem'

/-- C7 witness: `scnDiverge` (principal 100, rate 0, payment 0, no events)
never terminates and its balance is constant between iterations 0 and 1. -/
theorem claim_C7_witness :
    scnDiverge.start_date = some 0 ∧
    scnDiverge.one_time_payments = [] ∧ scnDiverge.recurring_payments = [] ∧
    (1 : ℤ) ≤ scnDiverge.loan.frequency ∧ (0 : ℚ) ≤ scnDiverge.loan.rate ∧
    (1 / 100 : ℚ) ≤ scnDiverge.loan.principal ∧
    scnDiverge.loan.payment ≤
      round2 (scnDiverge.loan.principal *
        (scnDiverge.loan.rate / (scnDiverge.loan.frequency : ℚ))) ∧
    (scnDiverge.run_scenario 7 = none ∧
      opt_le (iter_remaining scnDiverge 0) (iter_remaining scnDiverge 1) = true) :=
  ⟨rfl, rfl, rfl, by decide, by decide, by decide, by decide,
    claim_C7_theorem scnDiverge 0 7 0 rfl rfl rfl (by decide) (by decide) (by decide)
      (by decide)⟩

/-- The one-time pass never changes an entry's date or amount. -/
theorem procOneTime_static (c : ℚ) (e : OneTimeE) : otStatic (procOneTime c e).1 = otStatic e := by
  unfold procOneTime
  split <;> rfl

/-- The recurring pass never changes an entry's window, amount or period. -/
theorem procRecur_static (c : ℚ) (e : RecurE) : rcStatic (procRecur c e).1 = rcStatic e := by
  unfold procRecur
  split
  · split <;> rfl
  · rfl

/-- A loop iteration preserves the static data of both schedules. -/
theorem stepOk_static (frequency : ℤ) (rate standard_payment : ℚ) (st : LoopState)
    (cur0 i : ℚ) :
    (stepOk frequency rate standard_payment st cur0 i).one_times.map otStatic =
      st.one_times.map otStatic ∧
    (stepOk frequency rate standard_payment st cur0 i).recurrings.map rcStatic =
      st.recurrings.map rcStatic := by
  constructor
  · show ((st.one_times.map (procOneTime (cur0 + stepDays frequency))).map Prod.fst).map otStatic
      = st.one_times.map otStatic
    rw [List.map_map, List.map_map]
    exact List.map_congr_left fun e _ => procOneTime_static (cur0 + stepDays frequency) e
  · have hcases : (stepOk frequency rate standard_payment st cur0 i).recurrings =
        (st.recurrings.map (procRecur (cur0 + stepDays frequency))).map Prod.fst ∨
        (stepOk frequency rate standard_payment st cur0 i).recurrings = st.recurrings := by
      simp only [stepOk]
      split
      · split
        · left; rfl
        · right; rfl
      · split
        · left; rfl
        · right; rfl
    rcases hcases with hc | hc
    · rw [hc, List.map_map, List.map_map]
      exact List.map_congr_left fun e _ => procRecur_static (cur0 + stepDays frequency) e
    · rw [hc]

/-- A run that completes preserves the static data of both schedules. -/
theorem run_loop_static (frequency : ℤ) (rate standard_payment : ℚ) :
    ∀ (fuel : ℕ) (st final : LoopState),
    run_loop frequency rate standard_payment fuel st = some (.ok final) →
    final.one_times.map otStatic = st.one_times.map otStatic ∧
    final.recurrings.map rcStatic = st.recurrings.map rcStatic := by
  intro fuel
  induction fuel with
  | zero =>
    intro st final h
    unfold run_loop at h
    split at h
    · exact absurd h (by simp)
    · simp only [Option.some.injEq, Except.ok.injEq] at h
      rw [← h]
      exact ⟨rfl, rfl⟩
  | succ fuel ih =>
    intro st final h
    unfold run_loop at h
    split at h
    · cases hstep : stepPeriod frequency rate standard_payment st with
      | error e => rw [hstep] at h; exact absurd h (by simp)
      | ok st1 =>
        rw [hstep] at h
        obtain ⟨cur0, i, -, -, -, hst1⟩ :=
          stepPeriod_ok_elim frequency rate standard_payment st st1 hstep
        obtain ⟨ih1, ih2⟩ := ih st1 final h
        obtain ⟨s1, s2⟩ := stepOk_static frequency rate standard_payment st cur0 i
        rw [hst1] at ih1 ih2
        exact ⟨ih1.trans s1, ih2.trans s2⟩
    · simp only [Option.some.injEq, Except.ok.injEq] at h
      rw [← h]
      exact ⟨rfl, rfl⟩

/-- C4: a completed `run_scenario` leaves no transient keys on the schedule
(`unprocessed` and `last` are all removed), and re-running the scenario it
returns - same object, unchanged inputs - reproduces exactly the same
`Results` and the same final scenario: the run is deterministic and leaks
no per-run state between runs. -/
theorem claim_C4_theorem (s : Scenario) (fuel : ℕ) (res : Results) (s' : Scenario)
    (h : s.run_scenario fuel = some (.ok res, s')) :
    s'.one_time_payments.all (fun e => e.unprocessed.isNone) = true ∧
    s'.recurring_payments.all (fun e => e.last.isNone) = true ∧
    s'.run_scenario fuel = some (.ok res, s') := by
  unfold Scenario.run_scenario at h
  cases hloop : run_loop s.loan.frequency s.loan.rate s.loan.payment fuel (initState s) with
  | none => rw [hloop] at h; exact absurd h (by simp)
  | some r =>
    cases r with
    | error e => rw [hloop] at h; exact absurd h (by simp)
    | ok final =>
      rw [hloop] at h
      simp only [Option.some.injEq, Prod.mk.injEq, Except.ok.injEq] at h
      obtain ⟨hres, hs'⟩ := h
      have hstat :=
        run_loop_static s.loan.frequency s.loan.rate s.loan.payment fuel (initState s) final hloop
      have hOT : ∀ (l1 l2 : List OneTimeE), l1.map otStatic = l2.map otStatic →
          l1.map (fun e => { e with unprocessed := some true }) =
          l2.map (fun e => { e with unprocessed := some true }) := by
        intro l1 l2 hl
        have h1 : l1.map (fun e => ({ e with unprocessed := some true } : OneTimeE)) =
            (l1.map otStatic).map (fun pr => OneTimeE.mk pr.1 pr.2 (some true)) := by
          rw [List.map_map]; rfl
        have h2 : l2.map (fun e => ({ e with unprocessed := some true } : OneTimeE)) =
            (l2.map otStatic).map (fun pr => OneTimeE.mk pr.1 pr.2 (some true)) := by
          rw [List.map_map]; rfl
        rw [h1, h2, hl]
      have hRC : ∀ (l1 l2 : List RecurE), l1.map rcStatic = l2.map rcStatic →
          l1.map (fun e => { e with last := some 1 }) =
          l2.map (fun e => { e with last := some 1 }) := by
        intro l1 l2 hl
        have h1 : l1.map (fun e => ({ e with last := some 1 } : RecurE)) =
            (l1.map rcStatic).map
              (fun pr => RecurE.mk pr.1 pr.2.1 pr.2.2.1 pr.2.2.2 (some 1)) := by
          rw [List.map_map]; rfl
        have h2 : l2.map (fun e => ({ e with last := some 1 } : RecurE)) =
            (l2.map rcStatic).map
              (fun pr => RecurE.mk pr.1 pr.2.1 pr.2.2.1 pr.2.2.2 (some 1)) := by
          rw [List.map_map]; rfl
        rw [h1, h2, hl]
      have hot2 : (final.one_times.map clearOneTime).map otStatic =
          s.one_time_payments.map otStatic := by
        rw [List.map_map]
        have : final.one_times.map (otStatic ∘ clearOneTime) = final.one_times.map otStatic := by
          exact List.map_congr_left fun e _ => rfl
        rw [this, hstat.1]
        show (s.one_time_payments.map (fun e =>
          ({ e with unprocessed := some true } : OneTimeE))).map otStatic = _
        rw [List.map_map]
        exact List.map_congr_left fun e _ => rfl
      have hrc2 : (final.recurrings.map clearRecur).map rcStatic =
          s.recurring_payments.map rcStatic := by
        rw [List.map_map]
        have : final.recurrings.map (rcStatic ∘ clearRecur) = final.recurrings.map rcStatic := by
          exact List.map_congr_left fun e _ => rfl
        rw [this, hstat.2]
        show (s.recurring_payments.map (fun e =>
          ({ e with last := some 1 } : RecurE))).map rcStatic = _
        rw [List.map_map]
        exact List.map_congr_left fun e _ => rfl
      have hinit : initState
          { s with
            one_time_payments := final.one_times.map clearOneTime,
            recurring_payments := final.recurrings.map clearRecur } = initState s := by
        unfold initState
        simp only [LoopState.mk.injEq, and_true, true_and, eq_self_iff_true]
        exact ⟨hOT _ _ hot2, hRC _ _ hrc2⟩
      refine ⟨?_, ?_, ?_⟩
      · rw [← hs']
        simp only [List.all_eq_true]
        intro e he
        obtain ⟨e0, -, rfl⟩ := List.mem_map.mp he
        rfl
      · rw [← hs']
        simp only [List.all_eq_true]
        intro e he
        obtain ⟨e0, -, rfl⟩ := List.mem_map.mp he
        rfl
      · rw [← hs']
        unfold Scenario.run_scenario
        rw [show ({ s with
              one_time_payments := final.one_times.map clearOneTime,
              recurring_payments := final.recurrings.map clearRecur } : Scenario).loan = s.loan
          from rfl, hinit, hloop]
        simp only [Option.some.injEq, Prod.mk.injEq, Except.ok.injEq]
        exact ⟨hres, trivial⟩

/-- C4 witness: the completed run of `scnPlain` (which has no schedule
entries at all) returns the scenario unchanged, and a second run reproduces
the identical results. -/
theorem claim_C4_witness :
    scnPlain.run_scenario 5 = some (.ok
      { cumulative_interest := [0, 0, 0], cumulative_payments := [0, 60, 120],
        remaining_principal := [100, 40, 0], total_interest := 0, total_length := 2,
        total_payment := 120 }, scnPlain) ∧
    (scnPlain.one_time_payments.all (fun e => e.unprocessed.isNone) = true ∧
      scnPlain.recurring_payments.all (fun e => e.last.isNone) = true ∧
      scnPlain.run_scenario 5 = some (.ok
        { cumulative_interest := [0, 0, 0], cumulative_payments := [0, 60, 120],
          remaining_principal := [100, 40, 0], total_interest := 0, total_length := 2,
          total_payment := 120 }, scnPlain)) :=
  ⟨by decide,
    claim_C4_theorem scnPlain 5
      { cumulative_interest := [0, 0, 0], cumulative_payments := [0, 60, 120],
        remaining_principal := [100, 40, 0], total_interest := 0, total_length := 2,
        total_payment := 120 } scnPlain (by decide)⟩

/-- A one-time entry contributes a nonnegative amount. -/
theorem procOneTime_snd_nonneg (c : ℚ) (e : OneTimeE) (h : 0 ≤ e.amount) :
    0 ≤ (procOneTime c e).2 := by
  unfold procOneTime
  split
  · exact h
  · exact le_refl 0

/-- A recurring entry contributes a nonnegative amount. -/
theorem procRecur_snd_nonneg (c : ℚ) (e : RecurE) (h : 0 ≤ e.amount) :
    0 ≤ (procRecur c e).2 := by
  unfold procRecur
  split
  · split
    · exact h
    · exact le_refl 0
  · exact le_refl 0

/-- In a newest-first non-increasing list every entry is at most the head. -/
theorem pairwise_le_headD (l : List ℚ) (hp : l.Pairwise (fun a b => b ≤ a)) :
    ∀ y ∈ l, y ≤ l.headD 0 := by
  cases l with
  | nil => intro y hy; simp at hy
  | cons h t =>
    intro y hy
    rcases List.mem_cons.mp hy with rfl | hyt
    · exact le_refl _
    · exact (List.pairwise_cons.mp hp).1 y hyt

/-- In a newest-first non-decreasing list every entry is at least the head. -/
theorem pairwise_headD_le (l : List ℚ) (hp : l.Pairwise (fun a b => a ≤ b)) :
    ∀ y ∈ l, l.headD 0 ≤ y := by
  cases l with
  | nil => intro y hy; simp at hy
  | cons h t =>
    intro y hy
    rcases List.mem_cons.mp hy with rfl | hyt
    · exact le_refl _
    · exact (List.pairwise_cons.mp hp).1 y hyt

/-- `stepOk` written out: the recurring pass either ran (balance still at
least 0.01 after the standard payment) or did not. -/
theorem stepOk_cases (frequency : ℤ) (rate standard_payment : ℚ) (st : LoopState)
    (cur0 i : ℚ) :
    ∃ recs E2,
      ((recs = (st.recurrings.map (procRecur (cur0 + stepDays frequency))).map Prod.fst ∧
        E2 = ((st.recurrings.map (procRecur (cur0 + stepDays frequency))).map Prod.snd).sum) ∨
       (recs = st.recurrings ∧ E2 = 0)) ∧
      stepOk frequency rate standard_payment st cur0 i =
        { remaining := st.remaining -
            ((st.one_times.map (procOneTime (cur0 + stepDays frequency))).map Prod.snd).sum -
            (if st.remaining -
                ((st.one_times.map (procOneTime (cur0 + stepDays frequency))).map Prod.snd).sum <
                standard_payment - i
             then st.remaining -
                ((st.one_times.map (procOneTime (cur0 + stepDays frequency))).map Prod.snd).sum
             else standard_payment - i) - E2
          current := some (cur0 + stepDays frequency)
          one_times := (st.one_times.map (procOneTime (cur0 + stepDays frequency))).map Prod.fst
          recurrings := recs
          ci := (st.ci.headD 0 + i) :: st.ci
          cp := (st.cp.headD 0 + standard_payment +
            ((st.one_times.map (procOneTime (cur0 + stepDays frequency))).map Prod.snd).sum +
            E2) :: st.cp
          rp := (st.remaining -
            ((st.one_times.map (procOneTime (cur0 + stepDays frequency))).map Prod.snd).sum -
            (if st.remaining -
                ((st.one_times.map (procOneTime (cur0 + stepDays frequency))).map Prod.snd).sum <
                standard_payment - i
             then st.remaining -
                ((st.one_times.map (procOneTime (cur0 + stepDays frequency))).map Prod.snd).sum
             else standard_payment - i) - E2) :: st.rp
          tl := st.tl + 1 } := by
  simp only [stepOk]
  split
  · split
    · exact ⟨_, _, Or.inl ⟨rfl, rfl⟩, rfl⟩
    · exact ⟨_, _, Or.inr ⟨rfl, rfl⟩, rfl⟩
  · split
    · exact ⟨_, _, Or.inl ⟨rfl, rfl⟩, rfl⟩
    · exact ⟨_, _, Or.inr ⟨rfl, rfl⟩, rfl⟩

/-- A successful loop iteration preserves the run invariant, provided the
standard payment is nonnegative and covers the interest on the full
starting principal. -/
theorem stepOk_inv (frequency : ℤ) (rate standard_payment p0 : ℚ) (st : LoopState)
    (cur0 i : ℚ)
    (hstd : 0 ≤ standard_payment)
    (hcov : round2 (p0 * (rate / (frequency : ℚ))) ≤ standard_payment)
    (hint : Loan.interest
      (st.remaining -
        ((st.one_times.map (procOneTime (cur0 + stepDays frequency))).map Prod.snd).sum)
      rate frequency = .ok i)
    (hinv : RunInv p0 st) :
    RunInv p0 (stepOk frequency rate standard_payment st cur0 i) := by
  obtain ⟨hfreq, hrem1nn, hrate, hival⟩ := interest_ok_elim _ _ _ _ hint
  obtain ⟨recs, E2, hrecs, hstep⟩ := stepOk_cases frequency rate standard_payment st cur0 i
  rw [hstep]
  set E1 := ((st.one_times.map (procOneTime (cur0 + stepDays frequency))).map Prod.snd).sum
    with hE1def
  set PP := (if st.remaining - E1 < standard_payment - i then st.remaining - E1
    else standard_payment - i) with hPPdef
  have hfq : (0 : ℚ) < (frequency : ℚ) := by exact_mod_cast hfreq
  have hq : 0 ≤ rate / (frequency : ℚ) := div_nonneg hrate hfq.le
  have hE1nn : 0 ≤ E1 := by
    apply List.sum_nonneg
    intro x hx
    obtain ⟨e1, he1, rfl⟩ := List.mem_map.mp hx
    obtain ⟨e0, he0, rfl⟩ := List.mem_map.mp he1
    exact procOneTime_snd_nonneg _ _ (hinv.ot_amt e0 he0)
  have hE2nn : 0 ≤ E2 := by
    rcases hrecs with ⟨-, rfl⟩ | ⟨-, rfl⟩
    · apply List.sum_nonneg
      intro x hx
      obtain ⟨e1, he1, rfl⟩ := List.mem_map.mp hx
      obtain ⟨e0, he0, rfl⟩ := List.mem_map.mp he1
      exact procRecur_snd_nonneg _ _ (hinv.rc_amt e0 he0)
    · exact le_refl 0
  have hinn : 0 ≤ i := by
    rw [hival]
    exact round2_nonneg (mul_nonneg hrem1nn hq)
  have hile : i ≤ standard_payment := by
    rw [hival]
    refine le_trans (round2_mono ?_) hcov
    apply mul_le_mul_of_nonneg_right _ hq
    linarith [hinv.rem_le]
  have hPPnn : 0 ≤ PP := by
    rw [hPPdef]
    split
    · exact hrem1nn
    · linarith
  have hPPle : PP ≤ st.remaining - E1 := by
    rw [hPPdef]
    split
    · exact le_refl _
    · linarith [not_lt.mp (by assumption : ¬ st.remaining - E1 < standard_payment - i)]
  have hR3le : st.remaining - E1 - PP - E2 ≤ st.remaining := by linarith
  have hciHead := pairwise_le_headD st.ci hinv.ci_mono
  have hcpHead := pairwise_le_headD st.cp hinv.cp_mono
  have hrpHead := pairwise_headD_le st.rp hinv.rp_mono
  refine ⟨rfl, by simp, by simp, by simp,
    by show st.remaining - E1 - PP - E2 ≤ p0; linarith [hinv.rem_le],
    ?_, ?_, ?_, ?_, ?_, ?_, ?_, ?_⟩
  · show st.ci.length + 1 = st.tl + 1 + 1
    rw [hinv.ci_len]
  · show st.cp.length + 1 = st.tl + 1 + 1
    rw [hinv.cp_len]
  · show st.rp.length + 1 = st.tl + 1 + 1
    rw [hinv.rp_len]
  · refine List.pairwise_cons.mpr ⟨?_, hinv.ci_mono⟩
    intro y hy
    have := hciHead y hy
    linarith
  · refine List.pairwise_cons.mpr ⟨?_, hinv.cp_mono⟩
    intro y hy
    have := hcpHead y hy
    linarith
  · refine List.pairwise_cons.mpr ⟨?_, hinv.rp_mono⟩
    intro y hy
    have h1 := hrpHead y hy
    have h2 := hinv.rp_head
    linarith
  · intro e he
    obtain ⟨e1, he1, rfl⟩ := List.mem_map.mp he
    obtain ⟨e0, he0, rfl⟩ := List.mem_map.mp he1
    have := congrArg Prod.snd (procOneTime_static (cur0 + stepDays frequency) e0)
    rw [show (otStatic (procOneTime (cur0 + stepDays frequency) e0).1).2 =
      (procOneTime (cur0 + stepDays frequency) e0).1.amount from rfl,
      show (otStatic e0).2 = e0.amount from rfl] at this
    rw [this]
    exact hinv.ot_amt e0 he0
  · intro e he
    rcases hrecs with ⟨hr, -⟩ | ⟨hr, -⟩
    · rw [hr] at he
      obtain ⟨e1, he1, rfl⟩ := List.mem_map.mp he
      obtain ⟨e0, he0, rfl⟩ := List.mem_map.mp he1
      have := congrArg (fun q => q.2.2.1) (procRecur_static (cur0 + stepDays frequency) e0)
      rw [show ((fun (q : ℤ × ℤ × ℚ × ℤ) => q.2.2.1)
            (rcStatic (procRecur (cur0 + stepDays frequency) e0).1)) =
          (procRecur (cur0 + stepDays frequency) e0).1.amount from rfl,
        show ((fun (q : ℤ × ℤ × ℚ × ℤ) => q.2.2.1) (rcStatic e0)) = e0.amount from rfl] at this
      rw [this]
      exact hinv.rc_amt e0 he0
    · rw [hr] at he
      exact hinv.rc_amt e he

/-- A completed run preserves the invariant and exits with balance below
0.01. -/
theorem run_loop_inv (frequency : ℤ) (rate standard_payment p0 : ℚ)
    (hstd : 0 ≤ standard_payment)
    (hcov : round2 (p0 * (rate / (frequency : ℚ))) ≤ standard_payment) :
    ∀ (fuel : ℕ) (st final : LoopState),
    run_loop frequency rate standard_payment fuel st = some (.ok final) →
    RunInv p0 st →
    RunInv p0 final ∧ final.remaining < 1 / 100 := by
  intro fuel
  induction fuel with
  | zero =>
    intro st final h hinv
    unfold run_loop at h
    split at h
    · exact absurd h (by simp)
    · next hcond =>
      simp only [Option.some.injEq, Except.ok.injEq] at h
      rw [← h]
      exact ⟨hinv, not_le.mp hcond⟩
  | succ fuel ih =>
    intro st final h hinv
    unfold run_loop at h
    split at h
    · cases hstepv : stepPeriod frequency rate standard_payment st with
      | error e => rw [hstepv] at h; exact absurd h (by simp)
      | ok st1 =>
        rw [hstepv] at h
        obtain ⟨cur0, i, -, -, hint, hst1⟩ :=
          stepPeriod_ok_elim frequency rate standard_payment st st1 hstepv
        refine ih st1 final h ?_
        rw [hst1]
        exact stepOk_inv frequency rate standard_payment p0 st cur0 i hstd hcov hint hinv
    · next hcond =>
      simp only [Option.some.injEq, Except.ok.injEq] at h
      rw [← h]
      exact ⟨hinv, not_le.mp hcond⟩

/-- C3 (amended): for every completed run whose standard payment is
nonnegative and at least the first period's interest
`round2 (principal * rate/frequency)`, and whose scheduled amounts are all
nonnegative (as the add operations guarantee), the three result sequences
all have length `total_length + 1`, `cumulative_interest` and
`cumulative_payments` are non-decreasing, `remaining_principal` is
non-increasing, and its last entry is below 0.01.  (Without the
interest-coverage proviso the balance can grow, see the counterexample.) -/
theorem claim_C3_theorem (s : Scenario) (fuel : ℕ) (res : Results) (s' : Scenario)
    (hrun : s.run_scenario fuel = some (.ok res, s'))
    (hstd : 0 ≤ s.loan.payment)
    (hot : ∀ e ∈ s.one_time_payments, 0 ≤ e.amount)
    (hrc : ∀ e ∈ s.recurring_payments, 0 ≤ e.amount)
    (hcov : round2 (s.loan.principal * (s.loan.rate / (s.loan.frequency : ℚ))) ≤
      s.loan.payment) :
    res.cumulative_interest.length = res.total_length + 1 ∧
    res.cumulative_payments.length = res.total_length + 1 ∧
    res.remaining_principal.length = res.total_length + 1 ∧
    res.cumulative_interest.Pairwise (· ≤ ·) ∧
    res.cumulative_payments.Pairwise (· ≤ ·) ∧
    res.remaining_principal.Pairwise (fun a b => b ≤ a) ∧
    lastLTb res.remaining_principal (1 / 100) = true := by
  unfold Scenario.run_scenario at hrun
  cases hloop : run_loop s.loan.frequency s.loan.rate s.loan.payment fuel (initState s) with
  | none => rw [hloop] at hrun; exact absurd hrun (by simp)
  | some r =>
    cases r with
    | error e => rw [hloop] at hrun; exact absurd hrun (by simp)
    | ok final =>
      rw [hloop] at hrun
      simp only [Option.some.injEq, Prod.mk.injEq, Except.ok.injEq] at hrun
      obtain ⟨hres, -⟩ := hrun
      have hinv0 : RunInv s.loan.principal (initState s) := by
        refine ⟨rfl, by simp [initState], by simp [initState], by simp [initState],
          le_refl _, rfl, rfl, rfl, ?_, ?_, ?_, ?_, ?_⟩
        · exact List.pairwise_singleton _ _
        · exact List.pairwise_singleton _ _
        · exact List.pairwise_singleton _ _
        · intro e he
          obtain ⟨e0, he0, rfl⟩ := List.mem_map.mp he
          exact hot e0 he0
        · intro e he
          obtain ⟨e0, he0, rfl⟩ := List.mem_map.mp he
          exact hrc e0 he0
      obtain ⟨hinv, hlt⟩ := run_loop_inv s.loan.frequency s.loan.rate s.loan.payment
        s.loan.principal hstd hcov fuel (initState s) final hloop hinv0
      rw [← hres]
      refine ⟨?_, ?_, ?_, ?_, ?_, ?_, ?_⟩
      · show final.ci.reverse.length = final.tl + 1
        rw [List.length_reverse, hinv.ci_len]
      · show final.cp.reverse.length = final.tl + 1
        rw [List.length_reverse, hinv.cp_len]
      · show final.rp.reverse.length = final.tl + 1
        rw [List.length_reverse, hinv.rp_len]
      · exact List.pairwise_reverse.mpr hinv.ci_mono
      · exact List.pairwise_reverse.mpr hinv.cp_mono
      · exact List.pairwise_reverse.mpr hinv.rp_mono
      · show lastLTb final.rp.reverse (1 / 100) = true
        unfold lastLTb
        rw [List.getLast?_reverse]
        cases hrp : final.rp with
        | nil => exact absurd hrp hinv.rp_ne
        | cons hd tl2 =>
          have hhd : hd = final.remaining := by
            have := hinv.rp_head
            rw [hrp] at this
            exact this
          simp only [List.head?_cons]
          rw [hhd]
          exact decide_eq_true hlt

/-- C3 witness: the completed run of `scnPlain` satisfies all the sequence
invariants. -/
theorem claim_C3_witness :
    scnPlain.run_scenario 5 = some (.ok resPlain, scnPlain) ∧
    (0 : ℚ) ≤ scnPlain.loan.payment ∧
    round2 (scnPlain.loan.principal *
      (scnPlain.loan.rate / (scnPlain.loan.frequency : ℚ))) ≤ scnPlain.loan.payment ∧
    (resPlain.cumulative_interest.length = resPlain.total_length + 1 ∧
      resPlain.cumulative_payments.length = resPlain.total_length + 1 ∧
      resPlain.remaining_principal.length = resPlain.total_length + 1 ∧
      resPlain.cumulative_interest.Pairwise (· ≤ ·) ∧
      resPlain.cumulative_payments.Pairwise (· ≤ ·) ∧
      resPlain.remaining_principal.Pairwise (fun a b => b ≤ a) ∧
      lastLTb resPlain.remaining_principal (1 / 100) = true) :=
  ⟨by decide, by decide, by decide,
    claim_C3_theorem scnPlain 5 resPlain scnPlain (by decide) (by decide)
      (by intro e he; simp [scnPlain] at he) (by intro e he; simp [scnPlain] at he)
      (by decide)⟩

/-- A period advance is positive for a valid frequency. -/
theorem stepDays_pos (frequency : ℤ) (hf : 1 ≤ frequency) : 0 < stepDays frequency := by
  unfold stepDays
  apply div_pos (by norm_num)
  exact_mod_cast hf

/-- One one-time pass on an entry whose `unprocessed` flag encodes "no
period up to date `dk` has passed the event": afterwards the flag encodes
the same for the later date `dk1`. -/
theorem flag_step_pointwise (dk dk1 : ℚ) (hlt : dk ≤ dk1) (b : Prop) [Decidable b]
    (e0 : OneTimeE) :
    (procOneTime dk1 { e0 with unprocessed :=
      if b ∨ dk ≤ (e0.date : ℚ) then some true else none }).1 =
    { e0 with unprocessed := if dk1 ≤ (e0.date : ℚ) then some true else none } := by
  by_cases h2 : (e0.date : ℚ) < dk1
  · by_cases h1 : b ∨ dk ≤ (e0.date : ℚ) <;>
      simp [procOneTime, otApplies, h1, h2, not_le.mpr h2]
  · have hd : dk ≤ (e0.date : ℚ) := le_trans hlt (not_lt.mp h2)
    simp [procOneTime, otApplies, Or.inr hd, h2, not_lt.mp h2]

/-- The list-level version of `flag_step_pointwise`. -/
theorem oneTimes_flag_map (dk dk1 : ℚ) (hlt : dk ≤ dk1) (b : Prop) [Decidable b]
    (l0 : List OneTimeE) :
    ((l0.map (fun e0 => { e0 with unprocessed :=
        if b ∨ dk ≤ (e0.date : ℚ) then some true else none })).map (procOneTime dk1)).map
      Prod.fst =
    l0.map (fun e0 => { e0 with unprocessed :=
      if dk1 ≤ (e0.date : ℚ) then some true else none }) := by
  rw [List.map_map, List.map_map]
  exact List.map_congr_left fun e0 _ => flag_step_pointwise dk dk1 hlt b e0

/-- The `k + 1 = 0` disjunct in the flag condition is vacuous. -/
theorem flag_succ_cond (dk1 : ℚ) (k : ℕ) (l0 : List OneTimeE) :
    l0.map (fun e0 => { e0 with unprocessed :=
      if k + 1 = 0 ∨ dk1 ≤ (e0.date : ℚ) then some true else none }) =
    l0.map (fun e0 => { e0 with unprocessed :=
      if dk1 ≤ (e0.date : ℚ) then some true else none }) :=
  List.map_congr_left fun e0 _ => by
    rw [if_congr (or_iff_right (by omega)) rfl rfl]

/-- Unrolling `loop_iter` from the far end. -/
theorem loop_iter_succ (frequency : ℤ) (rate standard_payment : ℚ) : ∀ (k : ℕ) (st : LoopState),
    loop_iter frequency rate standard_payment (k + 1) st =
      match loop_iter frequency rate standard_payment k st with
      | some st1 =>
        if 1 / 100 ≤ st1.remaining then
          match stepPeriod frequency rate standard_payment st1 with
          | .ok st2 => some st2
          | .error _ => none
        else none
      | none => none := by
  intro k
  induction k with
  | zero =>
    intro st
    show (if 1 / 100 ≤ st.remaining then
        match stepPeriod frequency rate standard_payment st with
        | .ok st2 => loop_iter frequency rate standard_payment 0 st2
        | .error _ => none
      else none) =
      (if 1 / 100 ≤ st.remaining then
        match stepPeriod frequency rate standard_payment st with
        | .ok st2 => some st2
        | .error _ => none
      else none)
    by_cases hc : 1 / 100 ≤ st.remaining
    · rw [if_pos hc, if_pos hc]
      cases stepPeriod frequency rate standard_payment st <;> rfl
    · rw [if_neg hc, if_neg hc]
  | succ k ih =>
    intro st
    have hl : loop_iter frequency rate standard_payment (k + 1 + 1) st =
        (if 1 / 100 ≤ st.remaining then
          match stepPeriod frequency rate standard_payment st with
          | .ok st1 => loop_iter frequency rate standard_payment (k + 1) st1
          | .error _ => none
        else none) := rfl
    have hr2 : loop_iter frequency rate standard_payment (k + 1) st =
        (if 1 / 100 ≤ st.remaining then
          match stepPeriod frequency rate standard_payment st with
          | .ok st1 => loop_iter frequency rate standard_payment k st1
          | .error _ => none
        else none) := rfl
    rw [hl, hr2]
    by_cases hc : 1 / 100 ≤ st.remaining
    · rw [if_pos hc, if_pos hc]
      cases hstepv : stepPeriod frequency rate standard_payment st with
      | error e => rfl
      | ok st1 => exact ih st1
    · rw [if_neg hc, if_neg hc]

/-- Along the loop, after `k` completed iterations the simulated date is
`start + k * (365.25/frequency)` days, and a one-time entry still carries
its `unprocessed` flag exactly when no elapsed period lies strictly past
its date. -/
theorem loop_iter_inv_c2 (s : Scenario) (t : ℤ) (ht : s.start_date = some t)
    (hf : 1 ≤ s.loan.frequency) : ∀ (k : ℕ) (st : LoopState),
    loop_iter s.loan.frequency s.loan.rate s.loan.payment k (initState s) = some st →
    st.current = some ((t : ℚ) + (k : ℚ) * stepDays s.loan.frequency) ∧
    st.one_times = s.one_time_payments.map (fun e0 =>
      { e0 with unprocessed :=
        if k = 0 ∨ (t : ℚ) + (k : ℚ) * stepDays s.loan.frequency ≤ (e0.date : ℚ)
        then some true else none }) := by
  intro k
  induction k with
  | zero =>
    intro st hiter
    have hst : st = initState s := by
      have : loop_iter s.loan.frequency s.loan.rate s.loan.payment 0 (initState s) =
          some (initState s) := rfl
      rw [this] at hiter
      exact (Option.some.inj hiter).symm
    subst hst
    constructor
    · show s.start_date.map (fun d => (d : ℚ)) = _
      rw [ht]
      simp
    · simp only [initState]
      refine List.map_congr_left fun e0 _ => ?_
      rw [if_pos (Or.inl trivial)]
  | succ k ih =>
    intro st hiter
    rw [loop_iter_succ] at hiter
    cases hk : loop_iter s.loan.frequency s.loan.rate s.loan.payment k (initState s) with
    | none => rw [hk] at hiter; exact absurd hiter (by simp)
    | some stk =>
      rw [hk] at hiter
      have hiter2 : (if 1 / 100 ≤ stk.remaining then
          match stepPeriod s.loan.frequency s.loan.rate s.loan.payment stk with
          | .ok st2 => some st2
          | .error _ => none
        else none) = some st := hiter
      by_cases hcond : 1 / 100 ≤ stk.remaining
      case neg => rw [if_neg hcond] at hiter2; exact absurd hiter2 (by simp)
      rw [if_pos hcond] at hiter2
      cases hstepv : stepPeriod s.loan.frequency s.loan.rate s.loan.payment stk with
      | error e => rw [hstepv] at hiter2; exact absurd hiter2 (by simp)
      | ok st1 =>
        rw [hstepv] at hiter2
        simp only [Option.some.injEq] at hiter2
        obtain ⟨hcur, hflags⟩ := ih stk hk
        obtain ⟨cur0, i, hcur0, -, hint, hst1⟩ :=
          stepPeriod_ok_elim _ _ _ _ _ hstepv
        have hc0 : cur0 = (t : ℚ) + (k : ℚ) * stepDays s.loan.frequency := by
          rw [hcur0] at hcur
          exact Option.some.inj hcur
        rw [← hiter2, hst1]
        have hsd : 0 < stepDays s.loan.frequency := stepDays_pos _ hf
        have hcast : (t : ℚ) + ((k + 1 : ℕ) : ℚ) * stepDays s.loan.frequency =
            ((t : ℚ) + (k : ℚ) * stepDays s.loan.frequency) + stepDays s.loan.frequency := by
          push_cast
          ring
        constructor
        · show some (cur0 + stepDays s.loan.frequency) = _
          rw [hc0, hcast]
        · show (stk.one_times.map (procOneTime (cur0 + stepDays s.loan.frequency))).map
            Prod.fst = _
          rw [hc0, hflags, hcast, flag_succ_cond]
          exact oneTimes_flag_map _ _ (by linarith) (k = 0) s.one_time_payments

/-- C2 (amended): a one-time payment is applied at most once, on the first
simulated period whose date is *strictly after* (not on-or-after) the
event's date, and its amount is subtracted from the balance before that
period's interest is computed.  Formally, after `k` completed periods the
simulated date is `start + k * 365.25/frequency`; an entry still carries
its `unprocessed` flag exactly when no elapsed period date lies strictly
past the event's date (so each event is consumed exactly once, at the first
such period, and never if payoff happens first - an event dated exactly on
a period's date is not applied that period, see the counterexample); and
the period's recorded interest is the `Loan.interest` of the balance after
the one-time subtractions. -/
theorem claim_C2_theorem (s : Scenario) (t : ℤ) (k : ℕ) (st st' : LoopState)
    (ht : s.start_date = some t) (hf : 1 ≤ s.loan.frequency)
    (hiter : loop_iter s.loan.frequency s.loan.rate s.loan.payment k (initState s) = some st)
    (hstep : stepPeriod s.loan.frequency s.loan.rate s.loan.payment st = .ok st') :
    st.current = some ((t : ℚ) + (k : ℚ) * stepDays s.loan.frequency) ∧
    st.one_times = s.one_time_payments.map (fun e0 =>
      { e0 with unprocessed :=
        if k = 0 ∨ (t : ℚ) + (k : ℚ) * stepDays s.loan.frequency ≤ (e0.date : ℚ)
        then some true else none }) ∧
    st'.one_times = s.one_time_payments.map (fun e0 =>
      { e0 with unprocessed :=
        if (t : ℚ) + ((k : ℚ) + 1) * stepDays s.loan.frequency ≤ (e0.date : ℚ)
        then some true else none }) ∧
    Loan.interest
      (st.remaining -
        ((st.one_times.map
          (procOneTime ((t : ℚ) + ((k : ℚ) + 1) * stepDays s.loan.frequency))).map
          Prod.snd).sum)
      s.loan.rate s.loan.frequency = .ok (st'.ci.headD 0 - st.ci.headD 0) := by
  obtain ⟨hcur, hflags⟩ := loop_iter_inv_c2 s t ht hf k st hiter
  obtain ⟨cur0, i, hcur0, -, hint, hst'⟩ := stepPeriod_ok_elim _ _ _ _ _ hstep
  have hc0 : cur0 = (t : ℚ) + (k : ℚ) * stepDays s.loan.frequency := by
    rw [hcur0] at hcur
    exact Option.some.inj hcur
  have hsd : 0 < stepDays s.loan.frequency := stepDays_pos _ hf
  have hcast : (t : ℚ) + ((k : ℚ) + 1) * stepDays s.loan.frequency =
      cur0 + stepDays s.loan.frequency := by
    rw [hc0]
    ring
  refine ⟨hcur, hflags, ?_, ?_⟩
  · rw [hst', hcast]
    show (st.one_times.map (procOneTime (cur0 + stepDays s.loan.frequency))).map Prod.fst = _
    rw [hflags]
    exact oneTimes_flag_map _ _ (by rw [hc0]; linarith) (k = 0) s.one_time_payments
  · rw [hst', hcast]
    have hd : ((stepOk s.loan.frequency s.loan.rate s.loan.payment st cur0 i).ci.headD 0 -
        st.ci.headD 0) = i := by
      show (st.ci.headD 0 + i) - st.ci.headD 0 = i
      ring
    rw [hd]
    exact hint

/-- C2 witness: `scnEqualDate` after one period, stepping to period two. -/
theorem claim_C2_witness :
    scnEqualDate.start_date = some 0 ∧
    (1 : ℤ) ≤ scnEqualDate.loan.frequency ∧
    loop_iter scnEqualDate.loan.frequency scnEqualDate.loan.rate scnEqualDate.loan.payment 1
      (initState scnEqualDate) = some stEq1 ∧
    stepPeriod scnEqualDate.loan.frequency scnEqualDate.loan.rate scnEqualDate.loan.payment
      stEq1 = .ok stEq2 ∧
    (stEq1.current = some (((0 : ℤ) : ℚ) + ((1 : ℕ) : ℚ) * stepDays scnEqualDate.loan.frequency) ∧
      stEq1.one_times = scnEqualDate.one_time_payments.map (fun e0 =>
        { e0 with unprocessed :=
          if (1 : ℕ) = 0 ∨
            ((0 : ℤ) : ℚ) + ((1 : ℕ) : ℚ) * stepDays scnEqualDate.loan.frequency ≤ (e0.date : ℚ)
          then some true else none }) ∧
      stEq2.one_times = scnEqualDate.one_time_payments.map (fun e0 =>
        { e0 with unprocessed :=
          if ((0 : ℤ) : ℚ) + (((1 : ℕ) : ℚ) + 1) * stepDays scnEqualDate.loan.frequency ≤
            (e0.date : ℚ)
          then some true else none }) ∧
      Loan.interest
        (stEq1.remaining -
          ((stEq1.one_times.map
            (procOneTime (((0 : ℤ) : ℚ) +
              (((1 : ℕ) : ℚ) + 1) * stepDays scnEqualDate.loan.frequency))).map
            Prod.snd).sum)
        scnEqualDate.loan.rate scnEqualDate.loan.frequency =
          .ok (stEq2.ci.headD 0 - stEq1.ci.headD 0)) :=
  ⟨rfl, by decide, by decide, by decide,
    claim_C2_theorem scnEqualDate 0 1 stEq1 stEq2 rfl (by decide) (by decide) (by decide)⟩
